import Mathlib

/-!
Verification development for the road-condition reading reconciliation and
aggregation backend.  The JavaScript sources are shallowly embedded: JS
numbers that matter to the pipeline are modelled as `Option Rat` (with
`none` standing for the non-finite values NaN and plus or minus Infinity,
which the code always guards with `Number.isFinite` before comparing),
timestamps are modelled as `Int` milliseconds, strings as `String`, and
fallible code returns `Except` or `Option`.
-/

namespace CMR

/-- A JS number as used by the pipeline: `some q` is a finite value, `none`
collapses NaN and the infinities, which every relevant code path guards
with `Number.isFinite` before using in a comparison. -/
abbrev JNum := Option Rat

/-!
The standard rational arithmetic of the library is marked irreducible, so
concrete runs of the embedded pipeline could not be evaluated by `decide`.
The embedding therefore uses the following kernel-reducible arithmetic on
`Rat`, each proved equal to the standard operation.
-/

/-- Reducible rational addition. -/
def rAdd (a b : Rat) : Rat := mkRat (a.num * b.den + b.num * a.den) (a.den * b.den)

/-- Reducible rational multiplication. -/
def rMul (a b : Rat) : Rat := mkRat (a.num * b.num) (a.den * b.den)

/-- Reducible rational subtraction. -/
def rSub (a b : Rat) : Rat := rAdd a (-b)

/-- Reducible rational absolute value. -/
def rAbs (q : Rat) : Rat := if q < 0 then -q else q

theorem rAdd_eq (a b : Rat) : rAdd a b = a + b := by
  have ha : ((a.den : Rat)) ≠ 0 := by positivity
  have hb : ((b.den : Rat)) ≠ 0 := by positivity
  rw [rAdd, Rat.mkRat_eq_div]
  push_cast
  conv_rhs => rw [← Rat.num_div_den a, ← Rat.num_div_den b]
  field_simp

theorem rMul_eq (a b : Rat) : rMul a b = a * b := by
  have ha : ((a.den : Rat)) ≠ 0 := by positivity
  have hb : ((b.den : Rat)) ≠ 0 := by positivity
  rw [rMul, Rat.mkRat_eq_div]
  push_cast
  conv_rhs => rw [← Rat.num_div_den a, ← Rat.num_div_den b]
  field_simp

theorem rSub_eq (a b : Rat) : rSub a b = a - b := by
  rw [rSub, rAdd_eq, sub_eq_add_neg]

theorem rAbs_eq (q : Rat) : rAbs q = |q| := by
  rw [rAbs]
  rcases lt_or_le q 0 with h | h
  · rw [if_pos h, abs_of_neg h]
  · rw [if_neg (not_lt.mpr h), abs_of_nonneg h]

/-- Math.abs on a JS number; non-finite stays non-finite (abs of NaN is NaN). -/
def jAbs (x : JNum) : JNum := x.map rAbs

/-- Number.isFinite. -/
def jIsFinite (x : JNum) : Bool := x.isSome

/-- JS Math.round: round half toward positive infinity. -/
def jsRound (q : Rat) : Int := (rAdd q (mkRat 1 2)).floor

/-- Severity levels of an anomaly event, as stored in `highest_severity`.
The code represents them by the strings "Low", "Medium", "High". -/
inductive Severity where
  | Low
  | Medium
  | High
deriving DecidableEq, Repr

/-- The `severityOrder` table of reading_ingestion_service.js
(`Low: 1, Medium: 2, High: 3`). -/
def severityOrder : Severity → Nat
  | .Low => 1
  | .Medium => 2
  | .High => 3

/-- `normalizeUnixMs` of reading_ingestion_service.js: null unless the value
is finite and positive; values below 10^12 are treated as unix seconds and
scaled by 1000; the result is Math.rounded.  `none` is JS null. -/
def normalizeUnixMs (ts : JNum) : Option Int :=
  match ts with
  | none => none
  | some n =>
    if n ≤ 0 then none
    else if n < 1000000000000 then some (jsRound (rMul n 1000))
    else some (jsRound n)

/-- `mapVibrationToSeverity` of reading_ingestion_service.js:
abs value at least 9 is High, at least 7 is Medium, otherwise Low
(non-finite vibration also maps to Low). -/
def mapVibrationToSeverity (v : JNum) : Severity :=
  match jAbs v with
  | none => .Low
  | some a => if a ≥ 9 then .High else if a ≥ 7 then .Medium else .Low

/-- Migration sidecar record stored under the `_migration` key of a source
event.  Fields are optional because records arriving from the external
store may carry any subset. -/
structure MigRecord where
  status : Option String := none
  processed : Option Bool := none
  atTime : Option Int := none
  error : Option String := none
  type : Option String := none
  severity : Option String := none
deriving DecidableEq, Repr

/-- A raw event payload as read from the external store.  Each JS property
the code accesses is a field; `none` is an absent (undefined) property.
Numeric properties are stored after JS `Number` coercion (`some none`
would be a present non-numeric value, collapsed to NaN). -/
structure Payload where
  Latitude : Option JNum := none
  latitude : Option JNum := none
  lat : Option JNum := none
  Longitude : Option JNum := none
  longitude : Option JNum := none
  lon : Option JNum := none
  Vibration : Option JNum := none
  vibration : Option JNum := none
  z : Option JNum := none
  zCorrected : Option JNum := none
  Speed : Option JNum := none
  speed : Option JNum := none
  timestamp : Option JNum := none
  Timestamp : Option JNum := none
  severity : Option String := none
  potholeFlag : Option Bool := none
  patchyFlag : Option Bool := none
  pothole : Option Bool := none
  patchy : Option Bool := none
  gpsFix : Option Bool := none
  GpsFix : Option Bool := none
  _migration : Option MigRecord := none
deriving DecidableEq, Repr

/-- Resolve a JS `a ?? b ?? c` alias chain of numeric properties followed by
`Number(...)`: the first present property wins; if none is present the
result is NaN (`none`). -/
def resolve2 (a b : Option JNum) : JNum := (a.orElse (fun _ => b)).join

/-- Three-alias variant of `resolve2`. -/
def resolve3 (a b c : Option JNum) : JNum := (a.orElse (fun _ => b.orElse (fun _ => c))).join

/-- Four-alias variant of `resolve2`. -/
def resolve4 (a b c d : Option JNum) : JNum :=
  (a.orElse (fun _ => b.orElse (fun _ => c.orElse (fun _ => d)))).join

/-- The canonical reading produced by `normalizeReading`. -/
structure NormReading where
  latitude : JNum
  longitude : JNum
  vibration : JNum
  speed : JNum
  timestampMs : Option Int
deriving DecidableEq, Repr

/-- `normalizeReading` of reading_ingestion_service.js: alias resolution with
the fixed precedence of the source (`Latitude ?? latitude ?? lat`, and so
on); speed defaults to 0 when absent. -/
def normalizeReading (p : Payload) : NormReading :=
  { latitude := resolve3 p.Latitude p.latitude p.lat
    longitude := resolve3 p.Longitude p.longitude p.lon
    vibration := resolve4 p.Vibration p.vibration p.z p.zCorrected
    speed := (resolve2 p.Speed p.speed).orElse (fun _ => some 0)
    timestampMs := normalizeUnixMs (resolve2 p.timestamp p.Timestamp) }

def msgMissingCoords : String := "Missing/invalid Latitude/Longitude"
def msgGpsNotLocked : String := "Denied: GPS not locked (Latitude/Longitude is 0)"
def msgOutOfRange : String := "Denied: Latitude/Longitude out of range"
def msgInvalidSeverity : String := "Invalid severity"
def msgInvalidTimestamp : String := "Invalid timestamp"

/-- Validity lookup used by `validateReadingPayload` for the optional
`severity` property: the string must be a key of `severityOrder`. -/
def severityStringValid (s : String) : Bool :=
  s == "Low" || s == "Medium" || s == "High"

/-- JS truthiness of an Option Int (null and 0 are falsy). -/
def intTruthy : Option Int → Bool
  | none => false
  | some v => v != 0

/-- The source condition `payload.severity && !severityOrder[payload.severity]`:
a present, non-empty severity string that is not a key of the table. -/
def severityCheckFails (p : Payload) : Bool :=
  match p.severity with
  | none => false
  | some s => s != "" && !(severityStringValid s)

/-- The source condition
`(payload.timestamp !== undefined || payload.Timestamp !== undefined) && !timestampMs`. -/
def timestampCheckFails (p : Payload) (tms : Option Int) : Bool :=
  (p.timestamp.isSome || p.Timestamp.isSome) && !(intTruthy tms)

/-- `validateReadingPayload` of reading_ingestion_service.js, returning
`some message` on failure and `none` on success.  Checks in source order:
finite coordinates, the zero-coordinate GPS-lock check, geographic range,
the optional severity string, and the optional timestamp. -/
def validateReadingPayload (p : Payload) : Option String :=
  let n := normalizeReading p
  match n.latitude, n.longitude with
  | none, _ => some msgMissingCoords
  | some _, none => some msgMissingCoords
  | some la, some ln =>
    if la = 0 ∨ ln = 0 then some msgGpsNotLocked
    else if la < -90 ∨ la > 90 ∨ ln < -180 ∨ ln > 180 then some msgOutOfRange
    else if severityCheckFails p then some msgInvalidSeverity
    else if timestampCheckFails p n.timestampMs then some msgInvalidTimestamp
    else none

/-- Zero-pad a natural number to 4 digits (the fractional part of toFixed(4)). -/
def pad4 (n : Nat) : String :=
  let s := toString n
  String.mk (List.replicate (4 - s.length) '0') ++ s

/-- JS `Number.prototype.toFixed(4)`: choose the integer n with n / 10^4
closest to the value, ties toward the larger n, and print it with exactly
four fractional digits.  Coordinates reaching this function are finite;
the model works on the exact rational value, which agrees with the float64
computation for all inputs considered here (none lies within float64
rounding error of a tie). -/
def toFixed4 (x : Rat) : String :=
  let n : Int := (rAdd (rMul x 10000) (mkRat 1 2)).floor
  if n < 0 then
    "-" ++ toString (n.natAbs / 10000) ++ "." ++ pad4 (n.natAbs % 10000)
  else
    toString (n.toNat / 10000) ++ "." ++ pad4 (n.toNat % 10000)

/-- The grid bucket key: lat and lng formatted with toFixed(4) joined by an
underscore, exactly as built in `upsertAggregatedLocationEvent`. -/
def mkGridId (latRaw lngRaw : Rat) : String :=
  toFixed4 latRaw ++ "_" ++ toFixed4 lngRaw

/-- Anomaly event type. -/
inductive EType where
  | pothole
  | patchy
deriving DecidableEq, Repr

/-- A classified anomaly event, the shape consumed by the Grid Aggregator.
Coordinates are JS numbers; `upsertAggregatedLocationEvent` throws when
they are not finite.  `severity := none` models an absent severity, which
the upsert defaults to Low (`event.severity || "Low"`). -/
structure Event where
  type : EType
  latitude : JNum
  longitude : JNum
  severity : Option Severity
  timestampMs : Option Int
deriving DecidableEq, Repr

/-- The severity merge of `upsertAggregatedLocationEvent` (and, identically,
of `updateAggregatedLocation` in report_ingestion_service.js):
`severityOrder[incoming] > severityOrder[current] ? incoming : current`. -/
def mergeSeverity (current incoming : Severity) : Severity :=
  if severityOrder incoming > severityOrder current then incoming else current

/-- One row of the `aggregated_locations` table.  Reported-at columns are
unix seconds. -/
structure AggRow where
  gridId : String
  latitude : Rat
  longitude : Rat
  totalPotholes : Nat
  totalPatchy : Nat
  highestSeverity : Severity
  reportCount : Nat
  firstReportedAt : Int
  lastReportedAt : Int
deriving DecidableEq, Repr

/-- The value returned by `upsertAggregatedLocationEvent` (the
auto-increment row id of the relational store is not modelled). -/
structure UpsertRes where
  gridId : String
  created : Bool
  highestSeverity : Severity
deriving DecidableEq, Repr

/-- The `aggregated_locations` table, in insertion order. -/
abbrev AggStore := List AggRow

/-- View an Option Int as a JS number. -/
def jnumOfOptInt (x : Option Int) : JNum := x.map (fun v => (v : Rat))

/-- `upsertAggregatedLocationEvent` of reading_ingestion_service.js: derive
the gridId from the toFixed(4)-rounded coordinates (throwing on non-finite
coordinates), then update the existing row for that gridId (incrementing
the counter matching the event type, merging severity, incrementing
report_count, refreshing last_reported_at) or insert a fresh row with
count 1 and report_count 1.  `now` models NOW() in unix seconds; the
event timestamp is re-normalized by `normalizeUnixMs` as in the source,
and a falsy (null or zero) tsSqlSeconds falls back to NOW(). -/
def upsertAggregatedLocationEvent (store : AggStore) (now : Int) (ev : Event) :
    Except String (AggStore × UpsertRes) :=
  let timestampMs := normalizeUnixMs (jnumOfOptInt ev.timestampMs)
  match ev.latitude, ev.longitude with
  | some latRaw, some lngRaw =>
    let gridId := mkGridId latRaw lngRaw
    let severity := ev.severity.getD .Low
    let tsSqlSeconds : Option Int :=
      match timestampMs with
      | some ms => if ms = 0 then none else some (Int.fdiv ms 1000)
      | none => none
    let potholeInc : Nat := if ev.type = .pothole then 1 else 0
    let patchyInc : Nat := if ev.type = .patchy then 1 else 0
    let reportedAt : Int :=
      match tsSqlSeconds with
      | some s => if s = 0 then now else s
      | none => now
    match store.find? (fun r => r.gridId == gridId) with
    | some current =>
      let newHighest := mergeSeverity current.highestSeverity severity
      let store2 := store.map (fun r =>
        if r.gridId == gridId then
          { r with
            totalPotholes := r.totalPotholes + potholeInc
            totalPatchy := r.totalPatchy + patchyInc
            highestSeverity := newHighest
            reportCount := r.reportCount + 1
            lastReportedAt := reportedAt }
        else r)
      Except.ok (store2,
        { gridId := gridId, created := false, highestSeverity := newHighest })
    | none =>
      let row : AggRow :=
        { gridId := gridId
          latitude := latRaw
          longitude := lngRaw
          totalPotholes := potholeInc
          totalPatchy := patchyInc
          highestSeverity := severity
          reportCount := 1
          firstReportedAt := reportedAt
          lastReportedAt := reportedAt }
      Except.ok (store ++ [row],
        { gridId := gridId, created := true, highestSeverity := severity })
  | _, _ => Except.error "Invalid latitude/longitude for aggregated event"

/-- `ingestAggregatedEvent` of reading_ingestion_service.js: one upsert in
its own transaction.  In the pure model the transaction wrapper adds
nothing: on error the caller keeps the unchanged store (rollback). -/
def ingestAggregatedEvent (store : AggStore) (now : Int) (ev : Event) :
    Except String (AggStore × UpsertRes) :=
  upsertAggregatedLocationEvent store now ev

/-! ### Severity merge: supporting lemmas -/

theorem mergeSeverity_right_comm (z x y : Severity) :
    mergeSeverity (mergeSeverity z x) y = mergeSeverity (mergeSeverity z y) x := by
  cases z <;> cases x <;> cases y <;> rfl

theorem mergeSeverity_foldl_mem (init : Severity) (l : List Severity) :
    List.foldl mergeSeverity init l ∈ init :: l := by
  induction l generalizing init with
  | nil => simp [List.foldl]
  | cons s rest ih =>
    have h := ih (mergeSeverity init s)
    have hm : mergeSeverity init s = init ∨ mergeSeverity init s = s := by
      cases init <;> cases s <;> simp [mergeSeverity, severityOrder]
    rw [List.foldl_cons]
    rcases List.mem_cons.mp h with h | h
    · rw [h]
      rcases hm with hm | hm
      · rw [hm]; exact List.mem_cons_self init (s :: rest)
      · rw [hm]; exact List.mem_cons_of_mem _ (List.mem_cons_self s rest)
    · exact List.mem_cons_of_mem _ (List.mem_cons_of_mem _ h)

theorem severityOrder_le_mergeSeverity_left (a b : Severity) :
    severityOrder a ≤ severityOrder (mergeSeverity a b) := by
  cases a <;> cases b <;> simp [mergeSeverity, severityOrder]

theorem severityOrder_le_mergeSeverity_right (a b : Severity) :
    severityOrder b ≤ severityOrder (mergeSeverity a b) := by
  cases a <;> cases b <;> simp [mergeSeverity, severityOrder]

theorem mergeSeverity_foldl_upper (init : Severity) (l : List Severity) :
    ∀ s ∈ init :: l, severityOrder s ≤ severityOrder (List.foldl mergeSeverity init l) := by
  induction l generalizing init with
  | nil =>
    intro s hs
    simp at hs
    simp [List.foldl, hs]
  | cons t rest ih =>
    intro s hs
    have step := ih (mergeSeverity init t)
    simp only [List.mem_cons] at hs
    rcases hs with hs | hs | hs
    · calc severityOrder s ≤ severityOrder (mergeSeverity init t) := by
            rw [hs]; exact severityOrder_le_mergeSeverity_left init t
        _ ≤ _ := step _ (by simp)
    · calc severityOrder s ≤ severityOrder (mergeSeverity init t) := by
            rw [hs]; exact severityOrder_le_mergeSeverity_right init t
        _ ≤ _ := step _ (by simp)
    · exact step s (by simp [hs])

/-! ### Claim theorems for gridId bucketing and severity merge -/

/-- First reading of the round-trip scenario: (12.97134, 77.59463). -/
def evReading1 : Event :=
  { type := .pothole
    latitude := some (mkRat 1297134 100000)
    longitude := some (mkRat 7759463 100000)
    severity := some .Medium
    timestampMs := some 1700000000000 }

/-- Second reading of the round-trip scenario: (12.97129, 77.59468). -/
def evReading2 : Event :=
  { type := .pothole
    latitude := some (mkRat 1297129 100000)
    longitude := some (mkRat 7759468 100000)
    severity := some .Medium
    timestampMs := some 1700000000000 }

/-- A second reading that genuinely shares the 4-decimal grid cell of
`evReading1`: (12.97129, 77.59462). -/
def evReading2' : Event :=
  { type := .pothole
    latitude := some (mkRat 1297129 100000)
    longitude := some (mkRat 7759462 100000)
    severity := some .Medium
    timestampMs := some 1700000000000 }

/-- Upsert two events into an empty aggregated_locations table; `none` if
either upsert throws. -/
def twoUpserts (e1 e2 : Event) : Option AggStore :=
  match upsertAggregatedLocationEvent [] 1700000000 e1 with
  | .error _ => none
  | .ok (s1, _) =>
    match upsertAggregatedLocationEvent s1 1700000000 e2 with
    | .error _ => none
    | .ok (s2, _) => some s2

/-- C1 counterexample: the second reading of the spec scenario does NOT land
in grid "12.9713_77.5946" — toFixed(4) rounds 77.59468 up to "77.5947" —
so upserting the two scenario readings produces two aggregated rows, each
with reportCount 1, not one row with reportCount 2. -/
theorem grid_roundtrip_pair_counterexample :
    mkGridId (mkRat 1297134 100000) (mkRat 7759463 100000) = "12.9713_77.5946" ∧
    mkGridId (mkRat 1297129 100000) (mkRat 7759468 100000) ≠ "12.9713_77.5946" ∧
    (twoUpserts evReading1 evReading2).map List.length = some 2 ∧
    (twoUpserts evReading1 evReading2).map
      (fun s => s.all (fun r => r.reportCount == 1)) = some true := by
  decide

/-- C1 amended: gridId is toFixed(4)-rounded "lat4_lng4"; the scenario
readings (12.97134, 77.59463) and (12.97129, 77.59468) bucket to
"12.9713_77.5946" and "12.9713_77.5947" respectively (two rows, each
reportCount 1), while a pair that does round to the same 4-decimal cell,
(12.97134, 77.59463) and (12.97129, 77.59462), aggregates into exactly one
row with reportCount 2. -/
theorem grid_bucketing_amended :
    mkGridId (mkRat 1297134 100000) (mkRat 7759463 100000) = "12.9713_77.5946" ∧
    mkGridId (mkRat 1297129 100000) (mkRat 7759468 100000) = "12.9713_77.5947" ∧
    (twoUpserts evReading1 evReading2).map List.length = some 2 ∧
    (twoUpserts evReading1 evReading2).map
      (fun s => s.all (fun r => r.reportCount == 1)) = some true ∧
    mkGridId (mkRat 1297129 100000) (mkRat 7759462 100000) = "12.9713_77.5946" ∧
    (twoUpserts evReading1 evReading2').map List.length = some 1 ∧
    (twoUpserts evReading1 evReading2').map
      (fun s => s.all (fun r => r.reportCount == 2 && r.gridId == "12.9713_77.5946"))
      = some true := by
  decide

/-- C6: the severity fold over `mergeSeverity` (the update rule of
`upsertAggregatedLocationEvent` and `updateAggregatedLocation`) yields the
maximum of the initial and all incoming severities under Low < Medium <
High: it is an upper bound, it is attained, it is invariant under
reordering the incoming events, it never decreases the initial severity,
and merging [Low, High, Medium] in any order into any initial severity
yields High. -/
theorem severity_merge_is_max (init : Severity) (l : List Severity) :
    (List.foldl mergeSeverity init l ∈ init :: l) ∧
    (∀ s ∈ init :: l, severityOrder s ≤ severityOrder (List.foldl mergeSeverity init l)) ∧
    (severityOrder init ≤ severityOrder (List.foldl mergeSeverity init l)) ∧
    (∀ l2, l.Perm l2 →
      List.foldl mergeSeverity init l = List.foldl mergeSeverity init l2) ∧
    (∀ l2, List.Perm [Severity.Low, Severity.High, Severity.Medium] l2 →
      List.foldl mergeSeverity init l2 = Severity.High) := by
  refine ⟨mergeSeverity_foldl_mem init l, mergeSeverity_foldl_upper init l,
    mergeSeverity_foldl_upper init l init (by simp), ?_, ?_⟩
  · intro l2 hp
    exact hp.foldl_eq' (fun x _ y _ z => mergeSeverity_right_comm z x y) init
  · intro l2 hp
    have h := hp.foldl_eq' (fun x _ y _ z => mergeSeverity_right_comm z x y) init
    rw [← h]
    cases init <;> rfl

/-- Witness for `severity_merge_is_max` at init = Low,
l = [Medium, High]. -/
theorem severity_merge_is_max_witness :
    List.foldl mergeSeverity Severity.Low [Severity.Medium, Severity.High] =
      List.foldl mergeSeverity Severity.Low [Severity.High, Severity.Medium] ∧
    List.foldl mergeSeverity Severity.Low
      [Severity.Medium, Severity.High, Severity.Low] = Severity.High :=
  ⟨(severity_merge_is_max Severity.Low [Severity.Medium, Severity.High]).2.2.2.1
      [Severity.High, Severity.Medium] (by decide),
    (severity_merge_is_max Severity.Low []).2.2.2.2
      [Severity.Medium, Severity.High, Severity.Low] (by decide)⟩

/-! ### Claim theorems for coordinate validation -/

/-- A payload whose latitude is exactly 0 but whose longitude is a valid
in-range coordinate (77.5): its coordinates are not (0,0). -/
def payloadZeroLat : Payload :=
  { lat := some (some 0), lon := some (some (mkRat 155 2)) }

/-- C8 counterexample: `validateReadingPayload` rejects latitude 0 paired
with a perfectly valid longitude 77.5 as GPS-not-locked, although the
coordinates are not exactly (0,0) — the source tests `lat === 0 || lng
=== 0`, not both-zero — so a finite, in-range, non-(0,0) payload can fail
coordinate validation. -/
theorem coordinate_validation_counterexample :
    validateReadingPayload payloadZeroLat = some msgGpsNotLocked ∧
    (normalizeReading payloadZeroLat).latitude = some 0 ∧
    (normalizeReading payloadZeroLat).longitude = some (mkRat 155 2) ∧
    ¬((normalizeReading payloadZeroLat).latitude = some 0 ∧
      (normalizeReading payloadZeroLat).longitude = some 0) := by
  decide

/-- C8 amended: coordinate validation fails with the missing/invalid message
exactly when a resolved coordinate is non-finite; fails as GPS-not-locked
exactly when both are finite and latitude = 0 OR longitude = 0 (not only
at (0,0)); fails as out-of-range exactly when both are finite and nonzero
and one lies outside plus-minus 90/180; and passes coordinate validation
(none of the three coordinate messages) whenever both are finite, nonzero
and in range. -/
theorem coordinate_validation_amended (p : Payload) :
    ((validateReadingPayload p = some msgMissingCoords) ↔
      ((normalizeReading p).latitude = none ∨ (normalizeReading p).longitude = none)) ∧
    ((validateReadingPayload p = some msgGpsNotLocked) ↔
      (∃ a b, (normalizeReading p).latitude = some a ∧
        (normalizeReading p).longitude = some b ∧ (a = 0 ∨ b = 0))) ∧
    ((validateReadingPayload p = some msgOutOfRange) ↔
      (∃ a b, (normalizeReading p).latitude = some a ∧
        (normalizeReading p).longitude = some b ∧ ¬(a = 0 ∨ b = 0) ∧
        (a < -90 ∨ a > 90 ∨ b < -180 ∨ b > 180))) ∧
    (∀ a b, (normalizeReading p).latitude = some a →
      (normalizeReading p).longitude = some b → ¬(a = 0 ∨ b = 0) →
      ¬(a < -90 ∨ a > 90 ∨ b < -180 ∨ b > 180) →
      validateReadingPayload p ≠ some msgMissingCoords ∧
      validateReadingPayload p ≠ some msgGpsNotLocked ∧
      validateReadingPayload p ≠ some msgOutOfRange) := by
  have hv : validateReadingPayload p =
      (match (normalizeReading p).latitude, (normalizeReading p).longitude with
      | none, _ => some msgMissingCoords
      | some _, none => some msgMissingCoords
      | some la, some ln =>
        if la = 0 ∨ ln = 0 then some msgGpsNotLocked
        else if la < -90 ∨ la > 90 ∨ ln < -180 ∨ ln > 180 then some msgOutOfRange
        else if severityCheckFails p then some msgInvalidSeverity
        else if timestampCheckFails p (normalizeReading p).timestampMs then some msgInvalidTimestamp
        else none) := rfl
  rcases hla : (normalizeReading p).latitude with _ | a <;>
    rcases hlb : (normalizeReading p).longitude with _ | b <;>
    rw [hla, hlb] at hv
  · have hv1 : validateReadingPayload p = some msgMissingCoords := hv
    simp +decide [hv1]
  · have hv1 : validateReadingPayload p = some msgMissingCoords := hv
    simp +decide [hv1]
  · have hv1 : validateReadingPayload p = some msgMissingCoords := hv
    simp +decide [hv1]
  · have hv1 : validateReadingPayload p =
        (if a = 0 ∨ b = 0 then some msgGpsNotLocked
        else if a < -90 ∨ a > 90 ∨ b < -180 ∨ b > 180 then some msgOutOfRange
        else if severityCheckFails p then some msgInvalidSeverity
        else if timestampCheckFails p (normalizeReading p).timestampMs then some msgInvalidTimestamp
        else none) := hv
    by_cases h0 : a = 0 ∨ b = 0
    · rw [if_pos h0] at hv1
      refine ⟨by simp +decide [hv1], ?_, ?_, ?_⟩
      · simp +decide [hv1, h0]
      · rw [hv1]
        simp only [Option.some.injEq]
        constructor
        · intro h; exact absurd h (by decide)
        · rintro ⟨x, y, hx, hy, hne, -⟩
          subst hx; subst hy
          exact absurd h0 hne
      · intro x y hx hy hne hnr
        cases Option.some.inj hx
        cases Option.some.inj hy
        exact absurd h0 hne
    · rw [if_neg h0] at hv1
      by_cases hr : a < -90 ∨ a > 90 ∨ b < -180 ∨ b > 180
      · rw [if_pos hr] at hv1
        refine ⟨by simp +decide [hv1], ?_, ?_, ?_⟩
        · rw [hv1]
          simp only [Option.some.injEq]
          constructor
          · intro h; exact absurd h (by decide)
          · rintro ⟨x, y, hx, hy, hzero⟩
            subst hx; subst hy
            exact absurd hzero h0
        · rw [hv1]
          constructor
          · intro _; exact ⟨a, b, rfl, rfl, h0, hr⟩
          · intro _; rfl
        · intro x y hx hy hne hnr
          cases Option.some.inj hx
          cases Option.some.inj hy
          exact absurd hr hnr
      · rw [if_neg hr] at hv1
        have hcs : validateReadingPayload p = some msgInvalidSeverity ∨
            validateReadingPayload p = some msgInvalidTimestamp ∨
            validateReadingPayload p = none := by
          rw [hv1]; split_ifs <;> simp
        have hne : validateReadingPayload p ≠ some msgMissingCoords ∧
            validateReadingPayload p ≠ some msgGpsNotLocked ∧
            validateReadingPayload p ≠ some msgOutOfRange := by
          rcases hcs with h | h | h <;> rw [h] <;> exact ⟨by decide, by decide, by decide⟩
        refine ⟨?_, ?_, ?_, fun x y _ _ _ _ => hne⟩
        · simp [hne.1]
        · simp only [hne.2.1, false_iff]
          rintro ⟨x, y, hx, hy, hzero⟩
          cases Option.some.inj hx
          cases Option.some.inj hy
          exact absurd hzero h0
        · simp only [hne.2.2, false_iff]
          rintro ⟨x, y, hx, hy, hzero, hrange⟩
          cases Option.some.inj hx
          cases Option.some.inj hy
          exact absurd hrange hr

/-- Witness for `coordinate_validation_amended` at the in-range payload
(12.9, 77.5): coordinate validation passes. -/
theorem coordinate_validation_amended_witness :
    validateReadingPayload { lat := some (some (mkRat 129 10)), lon := some (some (mkRat 155 2)) }
      ≠ some msgGpsNotLocked :=
  ((coordinate_validation_amended
    { lat := some (some (mkRat 129 10)), lon := some (some (mkRat 155 2)) }).2.2.2
    (mkRat 129 10) (mkRat 155 2) (by decide) (by decide) (by decide) (by decide)).2.1

/-! ### firebase_flags_sync_controller.js: helpers and tree flattening -/

def stMigrated : String := "migrated"
def stDenied : String := "denied"
def stWouldMigrate : String := "would_migrate"
def stError : String := "error"
def msgFlagsFalse : String := "Flags false (potholeFlag & patchyFlag)"
def msgGpsZero : String := "gps_not_locked_or_zero_coords"
def msgInvalidCoords : String := "invalid_coordinates"

/-- `getLat` of firebase_flags_sync_controller.js. -/
def getLat (p : Payload) : JNum := resolve3 p.Latitude p.latitude p.lat

/-- `getLon` of firebase_flags_sync_controller.js (note: "lng" is not an
accepted alias). -/
def getLon (p : Payload) : JNum := resolve3 p.Longitude p.longitude p.lon

/-- `getVibration` of firebase_flags_sync_controller.js: first alias among
zCorrected/Vibration/vibration/z, with non-finite coerced to 0. -/
def getVibration (p : Payload) : Rat :=
  (resolve4 p.zCorrected p.Vibration p.vibration p.z).getD 0

/-- `getFlag`: the primary key wins when present, else the fallback,
else false. -/
def getFlag (primary fallback : Option Bool) : Bool :=
  match primary with
  | some v => v
  | none => fallback.getD false

/-- `isGpsLocked`: respect gpsFix / GpsFix when present, default locked. -/
def isGpsLocked (p : Payload) : Bool :=
  match p.gpsFix with
  | some v => v
  | none =>
    match p.GpsFix with
    | some v => v
    | none => true

/-- `looksLikeReading`: flag fields or coordinate fields are present. -/
def looksLikeReading (p : Payload) : Bool :=
  p.potholeFlag.isSome || p.patchyFlag.isSome || p.pothole.isSome || p.patchy.isSome ||
  p.Latitude.isSome || p.Longitude.isSome || p.latitude.isSome || p.longitude.isSome ||
  p.lat.isSome || p.lon.isSome

/-- `isAlreadyProcessed`: only a "migrated" sidecar status is final for the
flag-driven sync; denied items stay eligible. -/
def isAlreadyProcessed (p : Payload) : Bool :=
  match p._migration with
  | some m => m.status == some stMigrated
  | none => false

/-- JS `Number(key)` on a storage key, for the decimal-digit keys of the
model universe; keys that are not plain decimal digit strings coerce to
NaN. -/
def parseKeyNum (s : String) : JNum :=
  match s.toNat? with
  | some n => some (n : Rat)
  | none => none

/-- JS `x || y` on a nullable timestamp: null and 0 fall through. -/
def orElseTruthy (x : Option Int) (y : Int) : Int :=
  match x with
  | some v => if v = 0 then y else v
  | none => y

/-- `eventTimestampMs`: payload timestamp, else key parsed as timestamp,
else Date.now() (the `now` model parameter). -/
def eventTimestampMs (key : String) (p : Payload) (now : Int) : Int :=
  orElseTruthy (normalizeUnixMs (resolve2 p.timestamp p.Timestamp))
    (orElseTruthy (normalizeUnixMs (parseKeyNum key)) now)

/-- The external tree-shaped store: leaves are event payloads, inner nodes
hold children in key order.  (A container node is never itself mistaken
for a reading in the model, since payload fields live only at leaves.) -/
inductive FTree where
  | leaf (p : Payload)
  | node (children : List (String × FTree))

/-- One flattened leaf: its full path, its shallowest key, its payload. -/
structure FlatEntry where
  pathParts : List String
  key : String
  reading : Payload
deriving DecidableEq, Repr

mutual

/-- `flattenReadingsTree` of firebase_flags_sync_controller.js: depth-first
walk that stops at the first node satisfying `looksLikeReading`; a leaf
payload that does not look like a reading yields nothing (its scalar
fields are not containers). -/
def flattenReadingsTree : FTree → List String → List FlatEntry
  | .leaf p, path =>
    if looksLikeReading p then
      [{ pathParts := path, key := (path.getLast?).getD "", reading := p }]
    else []
  | .node cs, path => flattenChildren cs path

/-- Walk the children of a container node in order. -/
def flattenChildren : List (String × FTree) → List String → List FlatEntry
  | [], _ => []
  | (k, t) :: rest, path =>
    flattenReadingsTree t (path ++ [k]) ++ flattenChildren rest path

end

/-- Eligibility filter of the flag-driven sync:
`reprocess ? true : !isAlreadyProcessed(reading)`. -/
def flagsEligible (reprocess : Bool) (e : FlatEntry) : Bool :=
  reprocess || !(isAlreadyProcessed e.reading)

/-- Sort key of the flag-driven sync comparator
(`eventTimestampMs(a.key, a.reading) || 0`). -/
def flagsSortTs (now : Int) (e : FlatEntry) : Int := eventTimestampMs e.key e.reading now

/-- The effective batch limit: `parseInt(... ) || 500`, capped at 5000. -/
def flagsLimit (limitRaw : Nat) : Nat := min (if limitRaw = 0 then 500 else limitRaw) 5000

/-- The eligible entries of the tree, in flattening order. -/
def flagsEligibleList (tree : FTree) (reprocess : Bool) : List FlatEntry :=
  (flattenReadingsTree tree []).filter (flagsEligible reprocess)

/-- Candidate selection of the flag-driven sync: sort ascending by derived
timestamp (stable, like Array.prototype.sort) and keep the LAST `limit`
entries (`slice(-limit)`), the most recent ones. -/
def flagsCandidates (tree : FTree) (limitRaw : Nat) (reprocess : Bool) (now : Int) :
    List FlatEntry :=
  let sorted := (flagsEligibleList tree reprocess).insertionSort
    (fun a b => flagsSortTs now a ≤ flagsSortTs now b)
  sorted.drop (sorted.length - flagsLimit limitRaw)

/-! ### firebase_flags_sync_controller.js: the batch sync run -/

/-- Event type names as stored in the migration sidecar. -/
def eTypeName : EType → String
  | .pothole => "pothole"
  | .patchy => "patchy"

/-- Severity names as stored in the migration sidecar. -/
def severityName : Severity → String
  | .Low => "Low"
  | .Medium => "Medium"
  | .High => "High"

/-- One entry of the run audit trail (`results.items`). -/
structure FlagsItem where
  key : String
  status : String
  reason : Option String
  types : List EType
deriving DecidableEq, Repr

/-- The summary of a flag-driven sync run, together with the write sets the
run issued: `extWrites` are the `itemRef.update` merge-patches against the
external store (path and sidecar record), `relEvents` are the anomaly
events written to the relational store, `aggStore` is the resulting
aggregated_locations table. -/
structure FlagsSummary where
  scanned : Nat
  candidates : Nat
  flagged : Nat
  migrated : Nat
  denied : Nat
  potholeEvents : Nat
  patchyEvents : Nat
  items : List FlagsItem
  extWrites : List (List String × MigRecord)
  relEvents : List Event
  aggStore : AggStore
deriving DecidableEq, Repr

/-- The write path of a candidate:
`entry.pathParts.length ? entry.pathParts : [entry.key]`. -/
def itemWritePath (e : FlatEntry) : List String :=
  if e.pathParts.isEmpty then [e.key] else e.pathParts

/-- Build one audit-trail item. -/
def mkItem (key status : String) (reason : Option String) (types : List EType) :
    FlagsItem :=
  { key := key, status := status, reason := reason, types := types }

/-- Ingest a list of events in order, stopping at the first error, as the
`for (const ev of eventsToInsert) await ingestAggregatedEvent(ev)` loop
does inside its try block. -/
def ingestEvents (store : AggStore) (now : Int) : List Event → Except String AggStore
  | [] => Except.ok store
  | ev :: rest =>
    match ingestAggregatedEvent store now ev with
    | .error e => .error e
    | .ok (store2, _) => ingestEvents store2 now rest

/-- The denial sidecar written by the flag-driven sync. -/
def deniedRecord (now : Int) (msg : String) : MigRecord :=
  { status := some stDenied, processed := some true, atTime := some now, error := some msg }

/-- The migrated sidecar written by the flag-driven sync. -/
def migratedRecord (now : Int) (evs : List Event) : MigRecord :=
  { status := some stMigrated
    processed := some true
    atTime := some now
    type := some (String.intercalate "," (evs.map (fun e => eTypeName e.type)))
    severity := some (String.intercalate ","
      (evs.map (fun e => severityName (e.severity.getD .Low)))) }

/-- The `eventsToInsert` list built for an eligible flagged candidate: a
pothole event (severity from the two-level vibration map) when the pothole
flag is set, then a patchy event (severity Low) when the patchy flag is
set, both at the derived event timestamp. -/
def eventsToInsertAt (e : FlatEntry) (now : Int) : List Event :=
  let p := e.reading
  let lat := getLat p
  let lon := getLon p
  let vibration := getVibration p
  let tsMs := eventTimestampMs e.key p now
  (if getFlag p.potholeFlag p.pothole then
    [{ type := .pothole, latitude := lat, longitude := lon,
       severity := some (mapVibrationToSeverity (some vibration)),
       timestampMs := some tsMs }] else []) ++
  (if getFlag p.patchyFlag p.patchy then
    [{ type := .patchy, latitude := lat, longitude := lon,
       severity := some .Low, timestampMs := some tsMs }] else [])

/-- The body of the candidate loop of `runFlaggedReadingsSync`, in source
order: flags check (deny "Flags false"), flagged count, GPS/zero check
(deny gps_not_locked_or_zero_coords), finiteness check (deny
invalid_coordinates), event construction (see `eventsToInsertAt`), then
dry-run tally or live ingest plus sidecar write, with the catch branch
denying on ingest error. -/
def flagsStep (dryRun : Bool) (now : Int) (acc : FlagsSummary) (e : FlatEntry) :
    FlagsSummary :=
  let p := e.reading
  let potholeFlag := getFlag p.potholeFlag p.pothole
  let patchyFlag := getFlag p.patchyFlag p.patchy
  if !potholeFlag && !patchyFlag then
    { acc with
      denied := acc.denied + 1
      items := acc.items ++ [mkItem e.key stDenied (some msgFlagsFalse) []]
      extWrites := if dryRun then acc.extWrites else
        acc.extWrites ++ [(itemWritePath e, deniedRecord now msgFlagsFalse)] }
  else
    let acc := { acc with flagged := acc.flagged + 1 }
    let lat := getLat p
    let lon := getLon p
    if !isGpsLocked p || lat == some 0 || lon == some 0 then
      { acc with
        denied := acc.denied + 1
        items := acc.items ++ [mkItem e.key stDenied (some msgGpsZero) []]
        extWrites := if dryRun then acc.extWrites else
          acc.extWrites ++ [(itemWritePath e, deniedRecord now msgGpsZero)] }
    else if !(jIsFinite lat) || !(jIsFinite lon) then
      { acc with
        denied := acc.denied + 1
        items := acc.items ++ [mkItem e.key stDenied (some msgInvalidCoords) []]
        extWrites := if dryRun then acc.extWrites else
          acc.extWrites ++ [(itemWritePath e, deniedRecord now msgInvalidCoords)] }
    else
      let eventsToInsert := eventsToInsertAt e now
      if dryRun then
        { acc with
          migrated := acc.migrated + eventsToInsert.length
          potholeEvents := acc.potholeEvents + (if potholeFlag then 1 else 0)
          patchyEvents := acc.patchyEvents + (if patchyFlag then 1 else 0)
          items := acc.items ++
            [mkItem e.key stWouldMigrate none (eventsToInsert.map (fun ev => ev.type))] }
      else
        match ingestEvents acc.aggStore now eventsToInsert with
        | .ok agg2 =>
          { acc with
            migrated := acc.migrated + eventsToInsert.length
            potholeEvents := acc.potholeEvents + (if potholeFlag then 1 else 0)
            patchyEvents := acc.patchyEvents + (if patchyFlag then 1 else 0)
            items := acc.items ++
              [mkItem e.key stMigrated none (eventsToInsert.map (fun ev => ev.type))]
            extWrites := acc.extWrites ++
              [(itemWritePath e, migratedRecord now eventsToInsert)]
            relEvents := acc.relEvents ++ eventsToInsert
            aggStore := agg2 }
        | .error msg =>
          { acc with
            denied := acc.denied + 1
            items := acc.items ++ [mkItem e.key stError (some msg) []]
            extWrites := acc.extWrites ++ [(itemWritePath e, deniedRecord now msg)] }

/-- Fold the candidate loop over the batch. -/
def flagsLoop (dryRun : Bool) (now : Int) (acc : FlagsSummary) :
    List FlatEntry → FlagsSummary
  | [] => acc
  | e :: rest => flagsLoop dryRun now (flagsStep dryRun now acc e) rest

/-- `runFlaggedReadingsSync`: flatten the tree, filter by eligibility, sort
ascending by derived timestamp, keep the most recent `limit` candidates,
and drive each through the flags pipeline.  `now` models Date.now()/NOW(),
`agg0` the initial aggregated_locations table. -/
def runFlaggedReadingsSync (tree : FTree) (limitRaw : Nat) (dryRun reprocess : Bool)
    (now : Int) (agg0 : AggStore) : FlagsSummary :=
  let flattened := flagsEligibleList tree reprocess
  let cands := flagsCandidates tree limitRaw reprocess now
  flagsLoop dryRun now
    { scanned := flattened.length
      candidates := cands.length
      flagged := 0
      migrated := 0
      denied := 0
      potholeEvents := 0
      patchyEvents := 0
      items := []
      extWrites := []
      relEvents := []
      aggStore := agg0 } cands

/-! ### Claim theorems for the flag-driven sync scenario -/

/-- The scenario reading with zero coordinates and vibration 10 and no
flags. -/
def readingZeroCoords : Payload :=
  { lat := some (some 0), lon := some (some 0), vibration := some (some 10),
    timestamp := some (some 1600000000) }

/-- The scenario reading at (12.9, 77.5) with potholeFlag true and
zCorrected 10 (the spec writes the longitude field informally as "lng";
it is modelled through the accepted `lon` alias). -/
def readingFlagged : Payload :=
  { lat := some (some (mkRat 129 10)), lon := some (some (mkRat 155 2)),
    potholeFlag := some true, zCorrected := some (some 10),
    timestamp := some (some 1600000100) }

/-- The zero-coordinate reading with a pothole flag set, which does reach
the GPS check. -/
def readingZeroWithFlag : Payload :=
  { lat := some (some 0), lon := some (some 0), vibration := some (some 10),
    timestamp := some (some 1600000000), potholeFlag := some true }

/-- Input tree holding the two scenario readings. -/
def treeScenario : FTree :=
  .node [("r1", .leaf readingZeroCoords), ("r2", .leaf readingFlagged)]

/-- Input tree holding the flagged zero-coordinate reading. -/
def treeScenarioGps : FTree := .node [("rz", .leaf readingZeroWithFlag)]

/-- C2 counterexample: the flag-driven sync denies the flagless reading
(lat 0, lng 0, vibration 10) with reason "Flags false (potholeFlag &
patchyFlag)" — the flags check precedes the GPS check — not with reason
gps_not_locked_or_zero_coords as the claim states. -/
theorem flag_scenario_counterexample :
    (runFlaggedReadingsSync treeScenario 0 false false 1700000000000 []).items.head? =
      some (mkItem "r1" stDenied (some msgFlagsFalse) []) ∧
    msgFlagsFalse ≠ msgGpsZero := by decide

/-- C2 amended: the flagless zero-coordinate reading is denied with reason
"Flags false (potholeFlag & patchyFlag)"; a zero-coordinate reading that
does carry potholeFlag true is denied with reason
gps_not_locked_or_zero_coords; and the reading (12.9, 77.5, potholeFlag
true, zCorrected 10) is migrated as exactly one pothole event of severity
High. -/
theorem flag_scenario_amended :
    (runFlaggedReadingsSync treeScenario 0 false false 1700000000000 []).items =
      [mkItem "r1" stDenied (some msgFlagsFalse) [],
       mkItem "r2" stMigrated none [EType.pothole]] ∧
    (runFlaggedReadingsSync treeScenario 0 false false 1700000000000 []).relEvents =
      [{ type := .pothole, latitude := some (mkRat 129 10),
         longitude := some (mkRat 155 2), severity := some .High,
         timestampMs := some 1600000100000 }] ∧
    (runFlaggedReadingsSync treeScenarioGps 0 false false 1700000000000 []).items =
      [mkItem "rz" stDenied (some msgGpsZero) []] := by decide

/-! ### Dry-run noninterference of the flag-driven sync -/

/-- The classification summary of a run: flagged, migrated, denied,
potholeEvents, patchyEvents. -/
def classCounts (s : FlagsSummary) : Nat × Nat × Nat × Nat × Nat :=
  (s.flagged, s.migrated, s.denied, s.potholeEvents, s.patchyEvents)

theorem upsert_isOk (store : AggStore) (now : Int) (ev : Event)
    (hla : ev.latitude.isSome) (hlo : ev.longitude.isSome) :
    ∃ s2 r, upsertAggregatedLocationEvent store now ev = Except.ok (s2, r) := by
  obtain ⟨a, ha⟩ := Option.isSome_iff_exists.mp hla
  obtain ⟨b, hb⟩ := Option.isSome_iff_exists.mp hlo
  unfold upsertAggregatedLocationEvent
  rw [ha, hb]
  dsimp only
  cases List.find? (fun r => r.gridId == mkGridId a b) store <;> exact ⟨_, _, rfl⟩

theorem ingestEvents_ok (now : Int) (evs : List Event)
    (h : ∀ ev ∈ evs, ev.latitude.isSome ∧ ev.longitude.isSome) (store : AggStore) :
    ∃ agg2, ingestEvents store now evs = Except.ok agg2 := by
  induction evs generalizing store with
  | nil => exact ⟨store, rfl⟩
  | cons ev rest ih =>
    obtain ⟨hla, hlo⟩ := h ev (by simp)
    obtain ⟨s2, r, hup⟩ := upsert_isOk store now ev hla hlo
    obtain ⟨agg2, hrest⟩ := ih (fun x hx => h x (by simp [hx])) s2
    refine ⟨agg2, ?_⟩
    rw [ingestEvents]
    rw [show ingestAggregatedEvent store now ev = Except.ok (s2, r) from hup]
    exact hrest

/-- Abbreviation for the flags-false branch condition of `flagsStep`. -/
def condFlagsFalse (p : Payload) : Bool :=
  !(getFlag p.potholeFlag p.pothole) && !(getFlag p.patchyFlag p.patchy)

/-- Abbreviation for the GPS/zero-coordinate branch condition of
`flagsStep`. -/
def condGpsZero (p : Payload) : Bool :=
  !isGpsLocked p || getLat p == some 0 || getLon p == some 0

/-- Abbreviation for the non-finite-coordinate branch condition of
`flagsStep`. -/
def condBadCoords (p : Payload) : Bool :=
  !(jIsFinite (getLat p)) || !(jIsFinite (getLon p))

theorem flagsStep_eq_flagsFalse (d : Bool) (now : Int) (acc : FlagsSummary) (e : FlatEntry)
    (h : condFlagsFalse e.reading = true) :
    flagsStep d now acc e =
      { acc with
        denied := acc.denied + 1
        items := acc.items ++ [mkItem e.key stDenied (some msgFlagsFalse) []]
        extWrites := if d then acc.extWrites else
          acc.extWrites ++ [(itemWritePath e, deniedRecord now msgFlagsFalse)] } := by
  unfold condFlagsFalse at h
  unfold flagsStep
  dsimp only
  rw [if_pos h]

theorem flagsStep_eq_gps (d : Bool) (now : Int) (acc : FlagsSummary) (e : FlatEntry)
    (h1 : condFlagsFalse e.reading = false) (h2 : condGpsZero e.reading = true) :
    flagsStep d now acc e =
      { acc with
        flagged := acc.flagged + 1
        denied := acc.denied + 1
        items := acc.items ++ [mkItem e.key stDenied (some msgGpsZero) []]
        extWrites := if d then acc.extWrites else
          acc.extWrites ++ [(itemWritePath e, deniedRecord now msgGpsZero)] } := by
  unfold condFlagsFalse at h1
  unfold condGpsZero at h2
  unfold flagsStep
  dsimp only
  rw [if_neg (by simp [h1]), if_pos h2]

theorem flagsStep_eq_badCoords (d : Bool) (now : Int) (acc : FlagsSummary) (e : FlatEntry)
    (h1 : condFlagsFalse e.reading = false) (h2 : condGpsZero e.reading = false)
    (h3 : condBadCoords e.reading = true) :
    flagsStep d now acc e =
      { acc with
        flagged := acc.flagged + 1
        denied := acc.denied + 1
        items := acc.items ++ [mkItem e.key stDenied (some msgInvalidCoords) []]
        extWrites := if d then acc.extWrites else
          acc.extWrites ++ [(itemWritePath e, deniedRecord now msgInvalidCoords)] } := by
  unfold condFlagsFalse at h1
  unfold condGpsZero at h2
  unfold condBadCoords at h3
  unfold flagsStep
  dsimp only
  rw [if_neg (by simp [h1]), if_neg (by simp [h2]), if_pos h3]

theorem flagsStep_eq_eligible_dry (now : Int) (acc : FlagsSummary) (e : FlatEntry)
    (h1 : condFlagsFalse e.reading = false) (h2 : condGpsZero e.reading = false)
    (h3 : condBadCoords e.reading = false) :
    flagsStep true now acc e =
      { acc with
        flagged := acc.flagged + 1
        migrated := acc.migrated + (eventsToInsertAt e now).length
        potholeEvents := acc.potholeEvents +
          (if getFlag e.reading.potholeFlag e.reading.pothole then 1 else 0)
        patchyEvents := acc.patchyEvents +
          (if getFlag e.reading.patchyFlag e.reading.patchy then 1 else 0)
        items := acc.items ++ [mkItem e.key stWouldMigrate none
          ((eventsToInsertAt e now).map (fun ev => ev.type))] } := by
  unfold condFlagsFalse at h1
  unfold condGpsZero at h2
  unfold condBadCoords at h3
  unfold flagsStep
  dsimp only
  rw [if_neg (by simp [h1]), if_neg (by simp [h2]), if_neg (by simp [h3]), if_pos rfl]

theorem flagsStep_eq_eligible_live (now : Int) (acc : FlagsSummary) (e : FlatEntry)
    (h1 : condFlagsFalse e.reading = false) (h2 : condGpsZero e.reading = false)
    (h3 : condBadCoords e.reading = false) (agg2 : AggStore)
    (hok : ingestEvents acc.aggStore now (eventsToInsertAt e now) = Except.ok agg2) :
    flagsStep false now acc e =
      { acc with
        flagged := acc.flagged + 1
        migrated := acc.migrated + (eventsToInsertAt e now).length
        potholeEvents := acc.potholeEvents +
          (if getFlag e.reading.potholeFlag e.reading.pothole then 1 else 0)
        patchyEvents := acc.patchyEvents +
          (if getFlag e.reading.patchyFlag e.reading.patchy then 1 else 0)
        items := acc.items ++ [mkItem e.key stMigrated none
          ((eventsToInsertAt e now).map (fun ev => ev.type))]
        extWrites := acc.extWrites ++
          [(itemWritePath e, migratedRecord now (eventsToInsertAt e now))]
        relEvents := acc.relEvents ++ eventsToInsertAt e now
        aggStore := agg2 } := by
  unfold condFlagsFalse at h1
  unfold condGpsZero at h2
  unfold condBadCoords at h3
  unfold flagsStep
  dsimp only
  rw [if_neg (by simp [h1]), if_neg (by simp [h2]), if_neg (by simp [h3]),
    if_neg (by simp), hok]

theorem eventsToInsertAt_latlon (e : FlatEntry) (now : Int) :
    ∀ ev ∈ eventsToInsertAt e now,
      ev.latitude = getLat e.reading ∧ ev.longitude = getLon e.reading := by
  intro ev hev
  unfold eventsToInsertAt at hev
  dsimp only at hev
  rcases List.mem_append.mp hev with h | h <;>
    (split_ifs at h <;> simp at h) <;> (subst h; exact ⟨rfl, rfl⟩)

theorem eventsToInsertAt_coords_isSome (e : FlatEntry) (now : Int)
    (h3 : condBadCoords e.reading = false) :
    ∀ ev ∈ eventsToInsertAt e now, ev.latitude.isSome ∧ ev.longitude.isSome := by
  intro ev hev
  obtain ⟨hla, hlo⟩ := eventsToInsertAt_latlon e now ev hev
  have h : (getLat e.reading).isSome = true ∧ (getLon e.reading).isSome = true := by
    revert h3
    unfold condBadCoords jIsFinite
    cases (getLat e.reading).isSome <;> cases (getLon e.reading).isSome <;> simp
  rw [hla, hlo]
  exact h

theorem flagsStep_counts_eq (now : Int) (e : FlatEntry) (acc1 acc2 : FlagsSummary)
    (h : classCounts acc1 = classCounts acc2) :
    classCounts (flagsStep true now acc1 e) = classCounts (flagsStep false now acc2 e) := by
  simp only [classCounts, Prod.mk.injEq] at h
  obtain ⟨h1, h2, h3, h4, h5⟩ := h
  by_cases hf : condFlagsFalse e.reading = true
  · rw [flagsStep_eq_flagsFalse true now acc1 e hf,
      flagsStep_eq_flagsFalse false now acc2 e hf]
    simp [classCounts, h1, h2, h3, h4, h5]
  · have hf' : condFlagsFalse e.reading = false := by
      revert hf; cases condFlagsFalse e.reading <;> simp
    by_cases hg : condGpsZero e.reading = true
    · rw [flagsStep_eq_gps true now acc1 e hf' hg, flagsStep_eq_gps false now acc2 e hf' hg]
      simp [classCounts, h1, h2, h3, h4, h5]
    · have hg' : condGpsZero e.reading = false := by
        revert hg; cases condGpsZero e.reading <;> simp
      by_cases hc : condBadCoords e.reading = true
      · rw [flagsStep_eq_badCoords true now acc1 e hf' hg' hc,
          flagsStep_eq_badCoords false now acc2 e hf' hg' hc]
        simp [classCounts, h1, h2, h3, h4, h5]
      · have hc' : condBadCoords e.reading = false := by
          revert hc; cases condBadCoords e.reading <;> simp
        obtain ⟨agg2, hok⟩ := ingestEvents_ok now (eventsToInsertAt e now)
          (eventsToInsertAt_coords_isSome e now hc') acc2.aggStore
        rw [flagsStep_eq_eligible_dry now acc1 e hf' hg' hc',
          flagsStep_eq_eligible_live now acc2 e hf' hg' hc' agg2 hok]
        simp [classCounts, h1, h2, h3, h4, h5]

theorem flagsStep_dry_noWrites (now : Int) (acc : FlagsSummary) (e : FlatEntry) :
    (flagsStep true now acc e).extWrites = acc.extWrites ∧
    (flagsStep true now acc e).relEvents = acc.relEvents ∧
    (flagsStep true now acc e).aggStore = acc.aggStore := by
  by_cases hf : condFlagsFalse e.reading = true
  · rw [flagsStep_eq_flagsFalse true now acc e hf]
    simp
  · have hf' : condFlagsFalse e.reading = false := by
      revert hf; cases condFlagsFalse e.reading <;> simp
    by_cases hg : condGpsZero e.reading = true
    · rw [flagsStep_eq_gps true now acc e hf' hg]
      simp
    · have hg' : condGpsZero e.reading = false := by
        revert hg; cases condGpsZero e.reading <;> simp
      by_cases hc : condBadCoords e.reading = true
      · rw [flagsStep_eq_badCoords true now acc e hf' hg' hc]
        simp
      · have hc' : condBadCoords e.reading = false := by
          revert hc; cases condBadCoords e.reading <;> simp
        rw [flagsStep_eq_eligible_dry now acc e hf' hg' hc']
        exact ⟨rfl, rfl, rfl⟩

theorem flagsLoop_counts_eq (now : Int) (cands : List FlatEntry) :
    ∀ acc1 acc2, classCounts acc1 = classCounts acc2 →
      classCounts (flagsLoop true now acc1 cands) =
        classCounts (flagsLoop false now acc2 cands) := by
  induction cands with
  | nil => intro acc1 acc2 h; exact h
  | cons e rest ih =>
    intro acc1 acc2 h
    exact ih _ _ (flagsStep_counts_eq now e acc1 acc2 h)

theorem flagsLoop_dry_noWrites (now : Int) (cands : List FlatEntry) :
    ∀ acc, (flagsLoop true now acc cands).extWrites = acc.extWrites ∧
      (flagsLoop true now acc cands).relEvents = acc.relEvents ∧
      (flagsLoop true now acc cands).aggStore = acc.aggStore := by
  induction cands with
  | nil => intro acc; exact ⟨rfl, rfl, rfl⟩
  | cons e rest ih =>
    intro acc
    obtain ⟨w1, w2, w3⟩ := flagsStep_dry_noWrites now acc e
    obtain ⟨l1, l2, l3⟩ := ih (flagsStep true now acc e)
    exact ⟨w1 ▸ l1, w2 ▸ l2, w3 ▸ l3⟩

/-- C7: for every input tree, batch limit, reprocess setting, clock value
and initial aggregated table, the dry run of the flag-driven sync produces
the same classification summary (flagged, migrated, denied, potholeEvents,
patchyEvents, and also scanned and candidates) as the live run, and it
issues zero writes to the external store and zero writes to the
relational store (no ingested events, aggregated table unchanged). -/
theorem dry_run_noninterference (tree : FTree) (limitRaw : Nat) (reprocess : Bool)
    (now : Int) (agg0 : AggStore) :
    classCounts (runFlaggedReadingsSync tree limitRaw true reprocess now agg0) =
      classCounts (runFlaggedReadingsSync tree limitRaw false reprocess now agg0) ∧
    (runFlaggedReadingsSync tree limitRaw true reprocess now agg0).scanned =
      (runFlaggedReadingsSync tree limitRaw false reprocess now agg0).scanned ∧
    (runFlaggedReadingsSync tree limitRaw true reprocess now agg0).candidates =
      (runFlaggedReadingsSync tree limitRaw false reprocess now agg0).candidates ∧
    (runFlaggedReadingsSync tree limitRaw true reprocess now agg0).extWrites = [] ∧
    (runFlaggedReadingsSync tree limitRaw true reprocess now agg0).relEvents = [] ∧
    (runFlaggedReadingsSync tree limitRaw true reprocess now agg0).aggStore = agg0 := by
  obtain ⟨w1, w2, w3⟩ := flagsLoop_dry_noWrites now
    (flagsCandidates tree limitRaw reprocess now)
    { scanned := (flagsEligibleList tree reprocess).length
      candidates := (flagsCandidates tree limitRaw reprocess now).length
      flagged := 0
      migrated := 0
      denied := 0
      potholeEvents := 0
      patchyEvents := 0
      items := []
      extWrites := []
      relEvents := []
      aggStore := agg0 }
  refine ⟨?_, ?_, ?_, w1, w2, w3⟩
  · exact flagsLoop_counts_eq now (flagsCandidates tree limitRaw reprocess now) _ _ rfl
  · have hs : ∀ d acc cands, (flagsLoop d now acc cands).scanned = acc.scanned := by
      intro d acc cands
      induction cands generalizing acc with
      | nil => rfl
      | cons e rest ih =>
        rw [flagsLoop, ih]
        unfold flagsStep
        dsimp only
        split_ifs <;> (try rfl) <;> (cases ingestEvents acc.aggStore now _ <;> rfl)
    rw [runFlaggedReadingsSync, runFlaggedReadingsSync]
    rw [hs, hs]
  · have hs : ∀ d acc cands, (flagsLoop d now acc cands).candidates = acc.candidates := by
      intro d acc cands
      induction cands generalizing acc with
      | nil => rfl
      | cons e rest ih =>
        rw [flagsLoop, ih]
        unfold flagsStep
        dsimp only
        split_ifs <;> (try rfl) <;> (cases ingestEvents acc.aggStore now _ <;> rfl)
    rw [runFlaggedReadingsSync, runFlaggedReadingsSync]
    rw [hs, hs]

/-! ### Replaying migration-status writes against the external tree -/

/-- Merge a migration sidecar into a payload, as the
`itemRef.update(... _migration ...)` merge-patch does (no other payload
field is touched). -/
def setMigration (p : Payload) (m : MigRecord) : Payload := { p with _migration := some m }

mutual

/-- Apply one sidecar write at the given path of the tree. -/
def treeUpdateAt : FTree → List String → MigRecord → FTree
  | .leaf p, path, m => if path.isEmpty then .leaf (setMigration p m) else .leaf p
  | .node cs, [], _ => .node cs
  | .node cs, k :: rest, m => .node (treeUpdateChildren cs k rest m)

/-- Apply one sidecar write inside the children of a container node. -/
def treeUpdateChildren :
    List (String × FTree) → String → List String → MigRecord → List (String × FTree)
  | [], _, _, _ => []
  | (k2, t) :: cs, k, rest, m =>
    (if k2 = k then (k2, treeUpdateAt t rest m) else (k2, t)) ::
      treeUpdateChildren cs k rest m

end

/-- Apply all the sidecar writes of a run, in order. -/
def applyExtWrites (t : FTree) (ws : List (List String × MigRecord)) : FTree :=
  ws.foldl (fun acc w => treeUpdateAt acc w.1 w.2) t

/-- C3 counterexample: the flag-driven batch sync is NOT idempotent across
runs.  A reading with coordinates but no flags is denied on the first live
run, which writes a "denied" sidecar, but `isAlreadyProcessed` treats only
"migrated" as final, so the unchanged-but-for-those-writes store still
yields one candidate (not zero) on the second run. -/
theorem orchestrator_idempotence_counterexample :
    (runFlaggedReadingsSync
      (applyExtWrites treeScenario
        (runFlaggedReadingsSync treeScenario 0 false false 1700000000000 []).extWrites)
      0 false false 1700000000000 []).candidates = 1 ∧
    (runFlaggedReadingsSync treeScenario 0 false false 1700000000000 []).candidates = 2 := by
  decide

/-! ### Threshold-driven sync (firebase_readings_sync controller): detector -/

/-- Detector thresholds with the backend-tuned defaults of the source
(env overrides are modelled by constructing a different config). -/
structure DetectConfig where
  minSpeed : Rat := 0
  speedNoise : Rat := 3
  peakDelta : Rat := mkRat 7 2
  zMinThreshold : Rat := 8
  cooldownMs : Int := 4000
  potholeHighZ : Rat := 12
  patchyMin : Rat := 2
  patchyMax : Rat := 6
  patchyDurationMs : Int := 3000
  patchyResetMs : Int := 800
deriving DecidableEq, Repr

/-- The default config (no env overrides). -/
def defaultConfig : DetectConfig := {}

/-- `computeSpeedKmh`: non-finite speeds become 0, speeds below the noise
floor are clamped to 0. -/
def computeSpeedKmh (cfg : DetectConfig) (raw : JNum) : Rat :=
  let sp := raw.getD 0
  if sp < cfg.speedNoise then 0 else sp

/-- `mapPotholeSeverityFromZ`: High at or above the high-z threshold, else
Medium. -/
def mapPotholeSeverityFromZ (cfg : DetectConfig) (z : Rat) : Severity :=
  if cfg.potholeHighZ ≤ z then .High else .Medium

/-- The detector state carried across one whole batch (mirrors the
`prevZ` / `lastDetectionTime` / `patchyStart` / `patchyAlert` /
`lastPatchyVibrationTime` refs; `patchyStart = 0` models JS null, matching
JS falsiness, and all timestamps entering the loop are positive). -/
structure DetectState where
  prevZ : Rat := 0
  lastDetectionTime : Int := 0
  patchyStart : Int := 0
  patchyAlert : Bool := false
  lastPatchyVibrationTime : Int := 0
deriving DecidableEq, Repr

/-- The initial detector state of a batch run. -/
def initDetectState : DetectState := {}

/-- One validated, normalized reading as consumed by the detector loop. -/
structure DetReading where
  timestampMs : Int
  speed : JNum
  vibration : JNum
  latitude : JNum
  longitude : JNum
deriving DecidableEq, Repr

/-- The in-band test of the patchy detector:
`speed >= MIN_SPEED && isFinite(z) && z >= PATCHY_MIN && z < PATCHY_MAX`
on the absolute vibration. -/
def patchyInBand (cfg : DetectConfig) (speed : Rat) (zOpt : JNum) : Bool :=
  decide (cfg.minSpeed ≤ speed) &&
  (match zOpt with
   | some z => decide (cfg.patchyMin ≤ z ∧ z < cfg.patchyMax)
   | none => false)

/-- One iteration of the detection logic of the threshold-driven sync loop
(source lines 179-232): patchy logic first (sustained-band with the
reset-window debounce and the alert latch), then pothole logic only when
patchy did not fire (peak delta over previous vibration, z threshold,
cooldown), then the unconditional prevZ update.  Returns the new state
and the detected event, if any. -/
def detectStep (cfg : DetectConfig) (s : DetectState) (r : DetReading) :
    DetectState × Option Event :=
  let timestampMs := r.timestampMs
  let speed := computeSpeedKmh cfg r.speed
  let zOpt := jAbs r.vibration
  let inBand := patchyInBand cfg speed zOpt
  let sPat :=
    if inBand then
      { s with
        lastPatchyVibrationTime := timestampMs
        patchyStart := if s.patchyStart = 0 then timestampMs else s.patchyStart }
    else if cfg.patchyResetMs < timestampMs - s.lastPatchyVibrationTime then
      { s with patchyStart := 0, patchyAlert := false }
    else s
  let patchyFires :=
    inBand && decide (cfg.patchyDurationMs ≤ timestampMs - sPat.patchyStart) &&
      !sPat.patchyAlert
  let s2 := if patchyFires then { sPat with patchyAlert := true } else sPat
  let patchyEvent : Option Event :=
    if patchyFires then
      some { type := .patchy, latitude := r.latitude, longitude := r.longitude,
             severity := some .Low, timestampMs := some timestampMs }
    else none
  let potholeEvent : Option Event :=
    if patchyFires then none
    else
      match zOpt with
      | none => none
      | some z =>
        if cfg.minSpeed ≤ speed ∧ cfg.peakDelta < rAbs (rSub z s.prevZ) ∧
            cfg.zMinThreshold ≤ z ∧ cfg.cooldownMs < timestampMs - s.lastDetectionTime then
          some { type := .pothole, latitude := r.latitude, longitude := r.longitude,
                 severity := some (mapPotholeSeverityFromZ cfg z),
                 timestampMs := some timestampMs }
        else none
  let s3 := if potholeEvent.isSome then { s2 with lastDetectionTime := timestampMs } else s2
  let s4 := { s3 with prevZ := zOpt.getD s3.prevZ }
  (s4, patchyEvent.orElse (fun _ => potholeEvent))

/-- Run the detector over a whole time-ordered batch from a given state,
collecting the emitted events. -/
def runDetector (cfg : DetectConfig) (s : DetectState) :
    List DetReading → DetectState × List Event
  | [] => (s, [])
  | r :: rest =>
    let step := detectStep cfg s r
    let further := runDetector cfg step.1 rest
    (further.1, step.2.toList ++ further.2)

/-! ### Threshold-driven sync: store, candidate selection, batch run -/

/-- A value stored under a key of the flat readings collection: either an
object payload or a primitive (dropped by the object filter). -/
inductive StoreVal where
  | obj (p : Payload)
  | prim
deriving DecidableEq, Repr

/-- The flat external collection read by the threshold-driven sync. -/
abbrev FlatStore := List (String × StoreVal)

/-- The pending predicate of `pickPendingFirebaseItems`: a sidecar status of
"migrated" or "denied", or processed === true, excludes the record. -/
def pendingPred (p : Payload) : Bool :=
  let status := p._migration.bind (fun m => m.status)
  let processed := p._migration.bind (fun m => m.processed)
  if status == some stMigrated || status == some stDenied then false
  else if processed == some true then false
  else true

/-- `pickPendingFirebaseItems`: keep object entries, and unless `reprocess`
is set drop entries already migrated/denied/processed. -/
def pickPendingFirebaseItems (all : FlatStore) (reprocess : Bool) :
    List (String × Payload) :=
  let entries := all.filterMap
    (fun kv => match kv.2 with | .obj p => some (kv.1, p) | .prim => none)
  if reprocess then entries else entries.filter (fun kp => pendingPred kp.2)

/-- `coerceEventTimestampMs`: the payload timestamp when truthy, else the
storage key parsed as a timestamp. -/
def coerceEventTimestampMs (key : String) (p : Payload) : Option Int :=
  match normalizeUnixMs (resolve2 p.timestamp p.Timestamp) with
  | some v => if v = 0 then normalizeUnixMs (parseKeyNum key) else some v
  | none => normalizeUnixMs (parseKeyNum key)

/-- Sort key of the threshold-driven sync comparator
(`coerceEventTimestampMs(aKey, aVal) || 0`). -/
def thresholdSortTs (kp : String × Payload) : Int :=
  orElseTruthy (coerceEventTimestampMs kp.1 kp.2) 0

/-- The effective batch limit of the threshold-driven sync:
`parseInt(... ?? "200") || 200`, capped at 2000. -/
def thresholdLimit (limitRaw : Nat) : Nat := min (if limitRaw = 0 then 200 else limitRaw) 2000

/-- Candidate selection of the threshold-driven sync: sort the pending
entries ascending by derived timestamp and keep the FIRST `limit` entries
(`slice(0, limit)`, the oldest ones). -/
def thresholdCandidates (all : FlatStore) (limitRaw : Nat) (reprocess : Bool) :
    List (String × Payload) :=
  ((pickPendingFirebaseItems all reprocess).insertionSort
    (fun a b => thresholdSortTs a ≤ thresholdSortTs b)).take (thresholdLimit limitRaw)

/-- One entry of the threshold-driven run audit trail. -/
structure TItem where
  key : String
  status : String
  reason : Option String
  type : Option EType
deriving DecidableEq, Repr

/-- The summary of a threshold-driven sync run, with the migration-status
writes (`migWrites`, keyed by storage key), the events written to the
relational store, the resulting aggregated table, and the final detector
state. -/
structure TSummary where
  scanned : Nat
  candidates : Nat
  migrated : Nat
  denied : Nat
  errors : Nat
  items : List TItem
  migWrites : List (String × MigRecord)
  relEvents : List Event
  aggStore : AggStore
  detectState : DetectState
deriving DecidableEq, Repr

def msgNoConditions : String := "No pothole/patchy conditions met"

/-- The migrated sidecar written by the threshold-driven sync (the gridId
and row id fields of the source record are not modelled). -/
def migratedRecordT (now : Int) (ev : Event) : MigRecord :=
  { status := some stMigrated
    processed := some true
    atTime := some now
    type := some (eTypeName ev.type)
    severity := some (severityName (ev.severity.getD .Low)) }

/-- The detector input built from a validated candidate inside
`thresholdStep`: the normalized reading fields plus the derived timestamp
(`coerceEventTimestampMs(key, reading) || Date.now()`). -/
def detReadingOf (kp : String × Payload) (now : Int) : DetReading :=
  { timestampMs := orElseTruthy (coerceEventTimestampMs kp.1 kp.2) now
    speed := (normalizeReading kp.2).speed
    vibration := (normalizeReading kp.2).vibration
    latitude := (normalizeReading kp.2).latitude
    longitude := (normalizeReading kp.2).longitude }

/-- The body of the candidate loop of the threshold-driven sync, in source
order: payload validation (deny with the validation message), detector
step, denial when no event was detected, then dry-run tally or live
ingest plus sidecar write, the catch branch counting an error and writing
a denial. -/
def thresholdStep (cfg : DetectConfig) (dryRun : Bool) (now : Int) (acc : TSummary)
    (kp : String × Payload) : TSummary :=
  let key := kp.1
  match validateReadingPayload kp.2 with
  | some msg =>
    { acc with
      denied := acc.denied + 1
      items := acc.items ++ [{ key := key, status := stDenied, reason := some msg, type := none }]
      migWrites := if dryRun then acc.migWrites else
        acc.migWrites ++ [(key, deniedRecord now msg)] }
  | none =>
    let step := detectStep cfg acc.detectState (detReadingOf kp now)
    let acc := { acc with detectState := step.1 }
    match step.2 with
    | none =>
      { acc with
        denied := acc.denied + 1
        items := acc.items ++
          [{ key := key, status := stDenied, reason := some msgNoConditions, type := none }]
        migWrites := if dryRun then acc.migWrites else
          acc.migWrites ++ [(key, deniedRecord now msgNoConditions)] }
    | some ev =>
      if dryRun then
        { acc with
          migrated := acc.migrated + 1
          items := acc.items ++
            [{ key := key, status := stWouldMigrate, reason := none, type := some ev.type }] }
      else
        match ingestAggregatedEvent acc.aggStore now ev with
        | .ok (agg2, _) =>
          { acc with
            migrated := acc.migrated + 1
            items := acc.items ++
              [{ key := key, status := stMigrated, reason := none, type := some ev.type }]
            migWrites := acc.migWrites ++ [(key, migratedRecordT now ev)]
            relEvents := acc.relEvents ++ [ev]
            aggStore := agg2 }
        | .error msg =>
          { acc with
            errors := acc.errors + 1
            items := acc.items ++
              [{ key := key, status := stError, reason := some msg, type := none }]
            migWrites := acc.migWrites ++ [(key, deniedRecord now msg)] }

/-- Fold the threshold-driven candidate loop over the batch. -/
def thresholdLoop (cfg : DetectConfig) (dryRun : Bool) (now : Int) (acc : TSummary) :
    List (String × Payload) → TSummary
  | [] => acc
  | kp :: rest => thresholdLoop cfg dryRun now (thresholdStep cfg dryRun now acc kp) rest

/-- `syncReadingsToAggregatedLocations` of the threshold-driven sync
controller: pick pending entries of the flat collection, sort ascending by
derived timestamp, take the first `limit`, and replay the detector over
them in order, denying/migrating and writing sidecars as the source loop
does. -/
def runReadingsSync (cfg : DetectConfig) (all : FlatStore) (limitRaw : Nat)
    (dryRun reprocess : Bool) (now : Int) (agg0 : AggStore) : TSummary :=
  let cands := thresholdCandidates all limitRaw reprocess
  thresholdLoop cfg dryRun now
    { scanned := all.length
      candidates := cands.length
      migrated := 0
      denied := 0
      errors := 0
      items := []
      migWrites := []
      relEvents := []
      aggStore := agg0
      detectState := initDetectState } cands

/-- Merge a sidecar write into a stored value (a write to a primitive leaf
does not arise in model runs). -/
def setMigVal (v : StoreVal) (m : MigRecord) : StoreVal :=
  match v with
  | .obj p => .obj (setMigration p m)
  | .prim => .prim

/-- Apply the migration-status writes of a run to the flat store, in
order. -/
def applyMigWrites (store : FlatStore) (ws : List (String × MigRecord)) : FlatStore :=
  ws.foldl
    (fun st w => st.map (fun kv => if kv.1 = w.1 then (kv.1, setMigVal kv.2 w.2) else kv))
    store

/-! ### Idempotence of the threshold-driven batch sync -/

theorem thresholdStep_live_write (cfg : DetectConfig) (now : Int) (acc : TSummary)
    (kp : String × Payload) :
    ∃ m : MigRecord, (thresholdStep cfg false now acc kp).migWrites =
      acc.migWrites ++ [(kp.1, m)] ∧ m.processed = some true := by
  cases hval : validateReadingPayload kp.2 with
  | some msg => exact ⟨deniedRecord now msg, by simp [thresholdStep, hval], rfl⟩
  | none =>
    cases hdet : (detectStep cfg acc.detectState (detReadingOf kp now)).2 with
    | none =>
      exact ⟨deniedRecord now msgNoConditions, by simp [thresholdStep, hval, hdet], rfl⟩
    | some ev =>
      cases hing : ingestAggregatedEvent acc.aggStore now ev with
      | ok pr =>
        exact ⟨migratedRecordT now ev, by simp [thresholdStep, hval, hdet, hing], rfl⟩
      | error msg =>
        exact ⟨deniedRecord now msg, by simp [thresholdStep, hval, hdet, hing], rfl⟩

theorem thresholdLoop_live_writes (cfg : DetectConfig) (now : Int) :
    ∀ (cands : List (String × Payload)) (acc : TSummary),
      (thresholdLoop cfg false now acc cands).migWrites.map Prod.fst =
        acc.migWrites.map Prod.fst ++ cands.map Prod.fst ∧
      (∀ w ∈ (thresholdLoop cfg false now acc cands).migWrites,
        w ∈ acc.migWrites ∨ w.2.processed = some true) := by
  intro cands
  induction cands with
  | nil => intro acc; exact ⟨by simp [thresholdLoop], fun w hw => Or.inl hw⟩
  | cons kp rest ih =>
    intro acc
    obtain ⟨m, hw, hp⟩ := thresholdStep_live_write cfg now acc kp
    obtain ⟨ihk, ihm⟩ := ih (thresholdStep cfg false now acc kp)
    constructor
    · rw [thresholdLoop, ihk, hw]
      simp
    · intro w hwmem
      rcases ihm w hwmem with hin | hproc
      · rw [hw] at hin
        rcases List.mem_append.mp hin with hin | hin
        · exact Or.inl hin
        · simp only [List.mem_singleton] at hin
          subst hin
          exact Or.inr hp
      · exact Or.inr hproc

theorem thresholdLoop_candidates_const (cfg : DetectConfig) (d : Bool) (now : Int) :
    ∀ (cands : List (String × Payload)) (acc : TSummary),
      (thresholdLoop cfg d now acc cands).candidates = acc.candidates := by
  intro cands
  induction cands with
  | nil => intro acc; rfl
  | cons kp rest ih =>
    intro acc
    rw [thresholdLoop, ih]
    cases hval : validateReadingPayload kp.2 with
    | some msg => simp [thresholdStep, hval]
    | none =>
      cases hdet : (detectStep cfg acc.detectState (detReadingOf kp now)).2 with
      | none => simp [thresholdStep, hval, hdet]
      | some ev =>
        cases d with
        | true => simp [thresholdStep, hval, hdet]
        | false =>
          cases hing : ingestAggregatedEvent acc.aggStore now ev with
          | ok pr => simp [thresholdStep, hval, hdet, hing]
          | error msg => simp [thresholdStep, hval, hdet, hing]

theorem foldSet_no_match (k : String) (ws : List (String × MigRecord)) (v : StoreVal)
    (h : ∀ w ∈ ws, w.1 ≠ k) :
    ws.foldl (fun v w => if k = w.1 then setMigVal v w.2 else v) v = v := by
  induction ws generalizing v with
  | nil => rfl
  | cons w ws ih =>
    rw [List.foldl_cons, if_neg (fun hk => h w (by simp) hk.symm)]
    exact ih v (fun x hx => h x (by simp [hx]))

theorem foldSet_processed (k : String) (ws : List (String × MigRecord)) (v : StoreVal)
    (hex : ∃ w ∈ ws, w.1 = k) (hall : ∀ w ∈ ws, w.2.processed = some true) :
    (match ws.foldl (fun v w => if k = w.1 then setMigVal v w.2 else v) v with
    | .prim => True
    | .obj p => ∃ m, p._migration = some m ∧ m.processed = some true) := by
  induction ws generalizing v with
  | nil => obtain ⟨w, hw, -⟩ := hex; cases hw
  | cons w ws ih =>
    by_cases hrest : ∃ x ∈ ws, x.1 = k
    · rw [List.foldl_cons]
      exact ih _ hrest (fun x hx => hall x (by simp [hx]))
    · have hwk : w.1 = k := by
        obtain ⟨x, hx, hxk⟩ := hex
        rcases List.mem_cons.mp hx with hx | hx
        · subst hx; exact hxk
        · exact absurd ⟨x, hx, hxk⟩ hrest
      rw [List.foldl_cons, if_pos hwk.symm,
        foldSet_no_match k ws _ (fun x hx hxk => hrest ⟨x, hx, hxk⟩)]
      cases v with
      | prim => trivial
      | obj p => exact ⟨w.2, rfl, hall w (by simp)⟩

theorem applyMigWrites_eq_map (ws : List (String × MigRecord)) (store : FlatStore) :
    applyMigWrites store ws = store.map (fun kv =>
      (kv.1, ws.foldl (fun v w => if kv.1 = w.1 then setMigVal v w.2 else v) kv.2)) := by
  induction ws generalizing store with
  | nil => simp [applyMigWrites]
  | cons w ws ih =>
    rw [applyMigWrites, List.foldl_cons]
    rw [show ∀ st, List.foldl (fun st w => st.map
      (fun kv => if kv.1 = w.1 then (kv.1, setMigVal kv.2 w.2) else kv)) st ws =
        applyMigWrites st ws from fun st => rfl]
    rw [ih, List.map_map]
    apply List.map_congr_left
    intro kv _
    simp only [Function.comp]
    by_cases hk : kv.1 = w.1
    · simp [hk]
    · simp [hk]

theorem runReadingsSync_candidates (cfg : DetectConfig) (all : FlatStore) (limitRaw : Nat)
    (d rp : Bool) (now : Int) (agg0 : AggStore) :
    (runReadingsSync cfg all limitRaw d rp now agg0).candidates =
      (thresholdCandidates all limitRaw rp).length := by
  unfold runReadingsSync
  rw [thresholdLoop_candidates_const]

/-- C3 amended: the claim holds for the THRESHOLD-driven batch sync (whose
eligibility filter treats both "migrated" and "denied" sidecars, and
processed === true, as terminal): after a live run whose limit covers all
pending items, a second run on the store changed only by the first run's
own migration-status writes selects zero candidates.  (For the
flag-driven sync the claim fails: denied items stay eligible — see the
counterexample.) -/
theorem threshold_idempotence (cfg : DetectConfig) (all : FlatStore) (limitRaw : Nat)
    (now now2 : Int) (agg0 agg1 : AggStore)
    (hlim : (pickPendingFirebaseItems all false).length ≤ thresholdLimit limitRaw) :
    (runReadingsSync cfg
      (applyMigWrites all (runReadingsSync cfg all limitRaw false false now agg0).migWrites)
      limitRaw false false now2 agg1).candidates = 0 := by
  have hfull : thresholdCandidates all limitRaw false =
      (pickPendingFirebaseItems all false).insertionSort
        (fun a b => thresholdSortTs a ≤ thresholdSortTs b) := by
    unfold thresholdCandidates
    apply List.take_of_length_le
    rw [(List.perm_insertionSort _ _).length_eq]
    exact hlim
  have hrun1 : runReadingsSync cfg all limitRaw false false now agg0 =
      thresholdLoop cfg false now
        { scanned := all.length
          candidates := (thresholdCandidates all limitRaw false).length
          migrated := 0
          denied := 0
          errors := 0
          items := []
          migWrites := []
          relEvents := []
          aggStore := agg0
          detectState := initDetectState } (thresholdCandidates all limitRaw false) := rfl
  obtain ⟨hkeys, hproc⟩ := thresholdLoop_live_writes cfg now
    (thresholdCandidates all limitRaw false)
    { scanned := all.length
      candidates := (thresholdCandidates all limitRaw false).length
      migrated := 0
      denied := 0
      errors := 0
      items := []
      migWrites := []
      relEvents := []
      aggStore := agg0
      detectState := initDetectState }
  rw [← hrun1] at hkeys hproc
  simp only [List.map_nil, List.nil_append] at hkeys
  have hproc2 : ∀ w ∈ (runReadingsSync cfg all limitRaw false false now agg0).migWrites,
      w.2.processed = some true := by
    intro w hw
    rcases hproc w hw with h | h
    · exact absurd h (List.not_mem_nil w)
    · exact h
  have hmemk : ∀ kp ∈ pickPendingFirebaseItems all false,
      kp.1 ∈ (runReadingsSync cfg all limitRaw false false now agg0).migWrites.map Prod.fst := by
    intro kp hkp
    rw [hkeys, hfull]
    exact List.mem_map_of_mem Prod.fst ((List.mem_insertionSort _).mpr hkp)
  have hpend : pickPendingFirebaseItems
      (applyMigWrites all (runReadingsSync cfg all limitRaw false false now agg0).migWrites)
      false = [] := by
    set ws := (runReadingsSync cfg all limitRaw false false now agg0).migWrites with hws
    unfold pickPendingFirebaseItems
    simp only [Bool.false_eq_true, if_false]
    rw [List.filter_eq_nil_iff]
    intro kp hkp
    obtain ⟨kv, hkv, hf⟩ := List.mem_filterMap.mp hkp
    rw [applyMigWrites_eq_map] at hkv
    obtain ⟨kv0, hkv0, hg⟩ := List.mem_map.mp hkv
    by_cases hx : ∃ w ∈ ws, w.1 = kv0.1
    · have hfold := foldSet_processed kv0.1 ws kv0.2 hx (fun w hw => hproc2 w hw)
      rw [← hg] at hf
      revert hf hfold
      cases hfoldv : ws.foldl (fun v w => if kv0.1 = w.1 then setMigVal v w.2 else v) kv0.2 with
      | prim => intro hf; cases hf
      | obj p =>
        intro hf hfold
        obtain ⟨m, hm, hmp⟩ := hfold
        cases Option.some.inj hf
        simp [pendingPred, hm, hmp]
    · have hnm : ∀ w ∈ ws, w.1 ≠ kv0.1 := by
        intro w hw hwk
        exact hx ⟨w, hw, hwk⟩
      rw [foldSet_no_match kv0.1 ws kv0.2 hnm] at hg
      rw [← hg] at hf
      intro hpred
      have hkp_pend : kp ∈ pickPendingFirebaseItems all false := by
        unfold pickPendingFirebaseItems
        simp only [Bool.false_eq_true, if_false]
        refine List.mem_filter.mpr ⟨List.mem_filterMap.mpr ⟨kv0, hkv0, hf⟩, hpred⟩
      have := hmemk kp hkp_pend
      obtain ⟨w, hw, hwk⟩ := List.mem_map.mp this
      cases kv0 with
      | mk k0 v0 =>
        cases hv0 : v0 with
        | prim => rw [hv0] at hf; cases hf
        | obj p0 =>
          rw [hv0] at hf
          cases Option.some.inj hf
          exact hnm w hw hwk
  rw [runReadingsSync_candidates]
  simp [thresholdCandidates, hpend]

/-- A flat store with one pending reading, for the idempotence witness. -/
def storeIdem : FlatStore := [("1600000000", .obj readingFlagged)]

/-- Witness for `threshold_idempotence` on a one-reading store. -/
theorem threshold_idempotence_witness :
    (runReadingsSync defaultConfig
      (applyMigWrites storeIdem
        (runReadingsSync defaultConfig storeIdem 0 false false 1700000000000 []).migWrites)
      0 false false 1700000001000 []).candidates = 0 :=
  threshold_idempotence defaultConfig storeIdem 0 1700000000000 1700000001000 [] []
    (by decide)

/-! ### Candidate selection order -/

/-- A pending reading whose derived timestamp is recent. -/
def payloadTsA : Payload :=
  { lat := some (some 10), lon := some (some 20), timestamp := some (some 2000000000) }

/-- A pending reading whose derived timestamp is older. -/
def payloadTsB : Payload :=
  { lat := some (some 10), lon := some (some 20), timestamp := some (some 1600000000) }

/-- A two-reading store for the selection counterexample. -/
def storeSelect : FlatStore := [("a", .obj payloadTsA), ("b", .obj payloadTsB)]

/-- C4 counterexample: with limit 1, the threshold-driven batch sync selects
the candidate with the SMALLEST derived timestamp ("b"), not the most
recent one — `slice(0, limit)` keeps the head of the ascending order —
and the run processes exactly that oldest candidate. -/
theorem candidate_selection_counterexample :
    (thresholdCandidates storeSelect 1 false).map Prod.fst = ["b"] ∧
    (runReadingsSync defaultConfig storeSelect 1 false false 1700000000000 []).items.map
      (fun i => i.key) = ["b"] ∧
    thresholdSortTs ("b", payloadTsB) < thresholdSortTs ("a", payloadTsA) := by
  decide

/-- C4 amended: both batch entry points sort the eligible candidates
ascending by derived event timestamp, but they take opposite ends: the
flag-driven sync keeps the LAST `limit` entries (every kept candidate has
a timestamp at least as large as every dropped one — the most recent),
while the threshold-driven sync keeps the FIRST `limit` entries (every
kept candidate has a timestamp at most as large as every dropped one —
the oldest). -/
theorem candidate_selection_amended :
    (∀ (tree : FTree) (limitRaw : Nat) (rp : Bool) (now : Int),
      ∀ x ∈ ((flagsEligibleList tree rp).insertionSort
          (fun a b => flagsSortTs now a ≤ flagsSortTs now b)).take
          (((flagsEligibleList tree rp).insertionSort
            (fun a b => flagsSortTs now a ≤ flagsSortTs now b)).length -
            flagsLimit limitRaw),
        ∀ y ∈ flagsCandidates tree limitRaw rp now,
          flagsSortTs now x ≤ flagsSortTs now y) ∧
    (∀ (all : FlatStore) (limitRaw : Nat) (rp : Bool),
      ∀ x ∈ thresholdCandidates all limitRaw rp,
        ∀ y ∈ ((pickPendingFirebaseItems all rp).insertionSort
          (fun a b => thresholdSortTs a ≤ thresholdSortTs b)).drop (thresholdLimit limitRaw),
          thresholdSortTs x ≤ thresholdSortTs y) := by
  constructor
  · intro tree limitRaw rp now x hx y hy
    haveI : IsTotal FlatEntry (fun a b => flagsSortTs now a ≤ flagsSortTs now b) :=
      ⟨fun a b => le_total _ _⟩
    haveI : IsTrans FlatEntry (fun a b => flagsSortTs now a ≤ flagsSortTs now b) :=
      ⟨fun _ _ _ hab hbc => le_trans hab hbc⟩
    have hsorted := List.sorted_insertionSort
      (fun a b => flagsSortTs now a ≤ flagsSortTs now b) (flagsEligibleList tree rp)
    exact hsorted.rel_of_mem_take_of_mem_drop hx hy
  · intro all limitRaw rp x hx y hy
    haveI : IsTotal (String × Payload) (fun a b => thresholdSortTs a ≤ thresholdSortTs b) :=
      ⟨fun a b => le_total _ _⟩
    haveI : IsTrans (String × Payload) (fun a b => thresholdSortTs a ≤ thresholdSortTs b) :=
      ⟨fun _ _ _ hab hbc => le_trans hab hbc⟩
    have hsorted := List.sorted_insertionSort
      (fun a b => thresholdSortTs a ≤ thresholdSortTs b) (pickPendingFirebaseItems all rp)
    exact hsorted.rel_of_mem_take_of_mem_drop hx hy

/-- Witness for `candidate_selection_amended` on the two-reading store with
limit 1: the kept oldest candidate "b" precedes the dropped "a". -/
theorem candidate_selection_amended_witness :
    thresholdSortTs ("b", payloadTsB) ≤ thresholdSortTs ("a", payloadTsA) :=
  candidate_selection_amended.2 storeSelect 1 false ("b", payloadTsB) (by decide)
    ("a", payloadTsA) (by decide)

/-! ### The patchy detector fires exactly once per sustained run -/

/-- The patchy event emitted for a reading. -/
def patchyEventOf (r : DetReading) : Event :=
  { type := .patchy, latitude := r.latitude, longitude := r.longitude,
    severity := some .Low, timestampMs := some r.timestampMs }

theorem detectStep_inBand_patchy (cfg : DetectConfig) (s : DetectState) (r : DetReading)
    (hband : patchyInBand cfg (computeSpeedKmh cfg r.speed) (jAbs r.vibration) = true) :
    (detectStep cfg s r).1.patchyStart =
      (if s.patchyStart = 0 then r.timestampMs else s.patchyStart) ∧
    (detectStep cfg s r).1.patchyAlert =
      (s.patchyAlert ||
        (decide (cfg.patchyDurationMs ≤ r.timestampMs -
          (if s.patchyStart = 0 then r.timestampMs else s.patchyStart)) && !s.patchyAlert)) ∧
    (detectStep cfg s r).2.toList.filter (fun e => e.type == EType.patchy) =
      (if (decide (cfg.patchyDurationMs ≤ r.timestampMs -
            (if s.patchyStart = 0 then r.timestampMs else s.patchyStart)) && !s.patchyAlert) = true
        then [patchyEventOf r] else []) := by
  have hcascade : s.patchyAlert = true ∨ s.patchyAlert = false := by
    cases s.patchyAlert <;> simp
  cases hdur : decide (cfg.patchyDurationMs ≤ r.timestampMs -
      (if s.patchyStart = 0 then r.timestampMs else s.patchyStart)) with
  | true =>
    have hdd := of_decide_eq_true hdur
    rcases hcascade with halert | halert <;>
      refine ⟨?_, ?_, ?_⟩ <;>
        · simp only [detectStep, hband, halert, hdur]
          cases hz : jAbs r.vibration <;>
            simp [patchyEventOf, hz, hdd, halert] <;>
            first
            | (split <;> rfl)
            | (intro a h1 h2 h3 h4 ha; subst ha; simp)
  | false =>
    have hdd := of_decide_eq_false hdur
    rcases hcascade with halert | halert <;>
      refine ⟨?_, ?_, ?_⟩ <;>
        · simp only [detectStep, hband, halert, hdur]
          cases hz : jAbs r.vibration <;>
            simp [patchyEventOf, hz, hdd, halert] <;>
            first
            | (split <;> rfl)
            | (intro a h1 h2 h3 h4 ha; subst ha; simp)

theorem runDetector_patchy_filter_append (cfg : DetectConfig) (s : DetectState)
    (r : DetReading) (rest : List DetReading) :
    (runDetector cfg s (r :: rest)).2.filter (fun e => e.type == EType.patchy) =
      (detectStep cfg s r).2.toList.filter (fun e => e.type == EType.patchy) ++
        (runDetector cfg (detectStep cfg s r).1 rest).2.filter
          (fun e => e.type == EType.patchy) := by
  rw [runDetector]
  simp [List.filter_append]

theorem runDetector_inBand_alerted (cfg : DetectConfig) (rs : List DetReading) :
    ∀ s : DetectState,
      (∀ r ∈ rs, patchyInBand cfg (computeSpeedKmh cfg r.speed) (jAbs r.vibration) = true) →
      s.patchyAlert = true →
      (runDetector cfg s rs).2.filter (fun e => e.type == EType.patchy) = [] := by
  induction rs with
  | nil => intro s _ _; rfl
  | cons r rest ih =>
    intro s hall halert
    obtain ⟨hst, hal, hev⟩ := detectStep_inBand_patchy cfg s r (hall r (by simp))
    rw [runDetector_patchy_filter_append, hev]
    rw [if_neg (by simp [halert])]
    rw [ih (detectStep cfg s r).1 (fun x hx => hall x (by simp [hx]))
      (by rw [hal, halert]; simp)]
    rfl

theorem runDetector_inBand_unalerted (cfg : DetectConfig) (rs : List DetReading) :
    ∀ (s : DetectState) (start : Int),
      (∀ r ∈ rs, patchyInBand cfg (computeSpeedKmh cfg r.speed) (jAbs r.vibration) = true) →
      s.patchyStart = start → start ≠ 0 → s.patchyAlert = false →
      (runDetector cfg s rs).2.filter (fun e => e.type == EType.patchy) =
        ((rs.find? (fun r => decide (cfg.patchyDurationMs ≤ r.timestampMs - start))).toList.map
          patchyEventOf) := by
  induction rs with
  | nil => intro s start _ _ _ _; rfl
  | cons r rest ih =>
    intro s start hall hstart hne halert
    obtain ⟨hst, hal, hev⟩ := detectStep_inBand_patchy cfg s r (hall r (by simp))
    rw [hstart, if_neg hne] at hst hal hev
    rw [runDetector_patchy_filter_append, hev]
    cases hfire : decide (cfg.patchyDurationMs ≤ r.timestampMs - start) with
    | true =>
      rw [if_pos (by simp [hfire, halert])]
      rw [runDetector_inBand_alerted cfg rest (detectStep cfg s r).1
        (fun x hx => hall x (by simp [hx])) (by rw [hal, halert, hfire]; rfl)]
      simp [List.find?_cons, hfire]
    | false =>
      rw [if_neg (by simp [hfire])]
      rw [ih (detectStep cfg s r).1 start (fun x hx => hall x (by simp [hx])) hst hne
        (by rw [hal, halert, hfire]; rfl)]
      simp [List.find?_cons, hfire]

/-- C5: over any uninterrupted run of readings whose vibration stays in the
patchy band at qualifying speed (time-ordered, with positive timestamps),
started from the initial detector state, the detector emits EXACTLY the
patchy events given by the first reading whose elapsed time since the run
start reaches patchyDurationMs: one severity-Low patchy event at that
reading if it exists (in particular when the run lasts exactly
patchyDurationMs, at its boundary), and none otherwise; no second patchy
event fires while the run continues, since the alert latch stays set for
the whole uninterrupted run (the reset branch that clears it is never
taken in-band). -/
theorem patchy_fires_exactly_once (cfg : DetectConfig) (r0 : DetReading)
    (rest : List DetReading)
    (hall : ∀ r ∈ r0 :: rest,
      patchyInBand cfg (computeSpeedKmh cfg r.speed) (jAbs r.vibration) = true)
    (hts0 : 0 < r0.timestampMs)
    (_hord : List.Chain' (fun a b => a.timestampMs ≤ b.timestampMs) (r0 :: rest)) :
    (runDetector cfg initDetectState (r0 :: rest)).2.filter
        (fun e => e.type == EType.patchy) =
      (((r0 :: rest).find?
        (fun r => decide (cfg.patchyDurationMs ≤ r.timestampMs - r0.timestampMs))).toList.map
        patchyEventOf) := by
  obtain ⟨hst, hal, hev⟩ := detectStep_inBand_patchy cfg initDetectState r0 (hall r0 (by simp))
  have hzero : initDetectState.patchyStart = 0 := rfl
  rw [hzero] at hst hal hev
  rw [if_pos rfl] at hst hal hev
  rw [runDetector_patchy_filter_append, hev]
  cases hfire : decide (cfg.patchyDurationMs ≤ r0.timestampMs - r0.timestampMs) with
  | true =>
    rw [if_pos (by simp [hfire]; rfl)]
    rw [runDetector_inBand_alerted cfg rest (detectStep cfg initDetectState r0).1
      (fun x hx => hall x (by simp [hx])) (by rw [hal, hfire]; rfl)]
    have hfire0 : decide (cfg.patchyDurationMs ≤ (0 : Int)) = true := by simpa using hfire
    simp [List.find?_cons, hfire0]
  | false =>
    rw [if_neg (by simp [hfire])]
    rw [runDetector_inBand_unalerted cfg rest (detectStep cfg initDetectState r0).1
      r0.timestampMs (fun x hx => hall x (by simp [hx])) hst
      (by exact fun h => absurd h (by omega)) (by rw [hal, hfire]; rfl)]
    have hfire0 : decide (cfg.patchyDurationMs ≤ (0 : Int)) = false := by simpa using hfire
    simp [List.find?_cons, hfire0]

/-- An in-band reading at the start of a sustained run (t = 10000). -/
def patchyR0 : DetReading :=
  { timestampMs := 10000, speed := none, vibration := some 3,
    latitude := some 10, longitude := some 20 }

/-- An in-band reading 1 second into the run. -/
def patchyR1 : DetReading := { patchyR0 with timestampMs := 11000 }

/-- The in-band reading exactly patchyDurationMs after the run start. -/
def patchyR2 : DetReading := { patchyR0 with timestampMs := 13000 }

/-- Witness for `patchy_fires_exactly_once`: a three-reading run staying in
the band for exactly the default 3000 ms emits exactly one patchy event,
at the boundary reading. -/
theorem patchy_fires_exactly_once_witness :
    (runDetector defaultConfig initDetectState [patchyR0, patchyR1, patchyR2]).2.filter
      (fun e => e.type == EType.patchy) = [patchyEventOf patchyR2] := by
  have h := patchy_fires_exactly_once defaultConfig patchyR0 [patchyR1, patchyR2]
    (by decide) (by decide)
    (by
      rw [List.chain'_cons, List.chain'_cons]
      exact ⟨by decide, by decide, List.chain'_singleton _⟩)
  rw [h]
  decide

/-! ### The pothole detector below its thresholds -/

/-- Whether a detector output is a pothole event. -/
def emitsPothole : Option Event → Bool
  | some e => e.type == EType.pothole
  | none => false

/-- C9: a reading whose absolute vibration z is finite, differs from the
carried previous vibration by less than peakDelta AND lies below
zMinThreshold never produces a pothole event, for every detector state
(hence regardless of speed or cooldown) and every configuration. -/
theorem pothole_below_thresholds_no_fire (cfg : DetectConfig) (s : DetectState)
    (r : DetReading) (z : Rat) (hz : jAbs r.vibration = some z)
    (hdelta : |z - s.prevZ| < cfg.peakDelta) (hzmin : z < cfg.zMinThreshold) :
    emitsPothole (detectStep cfg s r).2 = false := by
  have hdelta' : rAbs (rSub z s.prevZ) < cfg.peakDelta := by
    rw [rAbs_eq, rSub_eq]; exact hdelta
  have hnot : ¬(cfg.minSpeed ≤ computeSpeedKmh cfg r.speed ∧
      cfg.peakDelta < rAbs (rSub z s.prevZ) ∧ cfg.zMinThreshold ≤ z ∧
      cfg.cooldownMs < r.timestampMs - s.lastDetectionTime) :=
    fun h => absurd h.2.1 (not_lt.mpr (le_of_lt hdelta'))
  unfold detectStep
  dsimp only
  rw [hz]
  dsimp only
  rw [if_neg hnot]
  split_ifs <;> simp [emitsPothole]

/-- Witness for `pothole_below_thresholds_no_fire` at the initial state with
vibration 1 (delta 1 below the default peakDelta 3.5 and z below the
default threshold 8). -/
theorem pothole_below_thresholds_no_fire_witness :
    emitsPothole (detectStep defaultConfig initDetectState
      { timestampMs := 10000, speed := some 30, vibration := some 1,
        latitude := some 10, longitude := some 20 }).2 = false :=
  pothole_below_thresholds_no_fire defaultConfig initDetectState
    { timestampMs := 10000, speed := some 30, vibration := some 1,
      latitude := some 10, longitude := some 20 } 1 (by decide)
    (by
      norm_num [show initDetectState.prevZ = 0 from rfl,
        show defaultConfig.peakDelta = mkRat 7 2 from rfl, Rat.mkRat_eq_div])
    (by norm_num [show defaultConfig.zMinThreshold = 8 from rfl])

/-! ### report_ingestion_service.js: validation and the health score -/

/-- One anomaly item of a report payload.  Numeric fields are `Option JNum`
with `none` for an absent (or non-number) property; `some none` is a
present NaN, which passes the typeof-number checks as in JS. -/
structure Anomaly where
  type : String
  latitude : Option JNum := none
  longitude : Option JNum := none
  start_latitude : Option JNum := none
  start_longitude : Option JNum := none
  end_latitude : Option JNum := none
  end_longitude : Option JNum := none
  severity : Option String := none
  speed : Option JNum := none
deriving DecidableEq, Repr

/-- A report payload (the `anomalies` value is always an array in the
model). -/
structure ReportPayload where
  report_id : Option String := none
  device_id : Option String := none
  reported_at : Option Int := none
  userId : Option Int := none
  anomalies : List Anomaly := []
deriving DecidableEq, Repr

/-- The speed cross-check:
`a.speed !== undefined && (typeof a.speed !== "number" || a.speed <= 10)`
(a present NaN passes, because NaN <= 10 is false in JS). -/
def speedCheckFails (sp : Option JNum) : Bool :=
  match sp with
  | none => false
  | some none => false
  | some (some q) => decide (q ≤ 10)

/-- Per-item validation of `validateReportPayload`, in source order.  (The
end_latitude/end_longitude typeof checks are vacuous in the model, where a
present numeric field is always a number.) -/
def validateAnomaly (a : Anomaly) : Option String :=
  if a.type ≠ "pothole" ∧ a.type ≠ "road_anomaly" then some "Invalid anomaly type"
  else if a.type = "pothole" ∧ (a.latitude = none ∨ a.longitude = none) then
    some "Pothole anomaly must include latitude/longitude"
  else if a.type = "road_anomaly" ∧
      ((a.start_latitude.orElse (fun _ => a.latitude)) = none ∨
        (a.start_longitude.orElse (fun _ => a.longitude)) = none) then
    some "Road anomaly must include start coordinates"
  else if (match a.severity with
    | some s => s != "" && !(severityStringValid s)
    | none => false) then some msgInvalidSeverity
  else if speedCheckFails a.speed then some "Invalid speed (must be > 10)"
  else none

/-- Validate the anomaly items in order; the first failure wins. -/
def validateAnomalies : List Anomaly → Option String
  | [] => none
  | a :: rest =>
    match validateAnomaly a with
    | some m => some m
    | none => validateAnomalies rest

/-- `validateReportPayload` of report_ingestion_service.js: report_id and
device_id must be non-empty strings, anomalies must be non-empty, and
every item must validate. -/
def validateReportPayload (p : ReportPayload) : Option String :=
  match p.report_id with
  | none => some "Missing/invalid report_id"
  | some rid =>
    if rid = "" then some "Missing/invalid report_id"
    else
      match p.device_id with
      | none => some "Missing/invalid device_id"
      | some did =>
        if did = "" then some "Missing/invalid device_id"
        else if p.anomalies.isEmpty then
          some "Missing/invalid anomalies (must be a non-empty array)"
        else validateAnomalies p.anomalies

/-- The `reports` row inserted by `ingestReportWithinTransaction` (the
per-anomaly detection rows and the aggregation updates, which reuse the
severity merge verified above, are not needed for the health-score
claim). -/
structure ReportRow where
  report_id : String
  total_potholes : Nat
  total_patchy_roads : Nat
  health_score : Int
  status : String
deriving DecidableEq, Repr

/-- `ingestReportWithinTransaction`: throw on invalid payload, split the
anomalies by type, charge 15 points per pothole and 5 per road anomaly
against a base score of 100, floored at 0, and insert the report row in
pending state. -/
def ingestReportWithinTransaction (p : ReportPayload) : Except String ReportRow :=
  match validateReportPayload p with
  | some msg => .error msg
  | none =>
    let potholes := p.anomalies.filter (fun a => a.type == "pothole")
    let patchyRoads := p.anomalies.filter (fun a => a.type == "road_anomaly")
    let penalty : Int := potholes.length * 15 + patchyRoads.length * 5
    let healthScore : Int := max 0 (100 - penalty)
    .ok
      { report_id := p.report_id.getD ""
        total_potholes := potholes.length
        total_patchy_roads := patchyRoads.length
        health_score := healthScore
        status := "pending" }

/-- C10: for every report payload accepted by validation, the stored report
row's health_score equals
max(0, 100 - 15 * (number of "pothole" anomalies) - 5 * (number of
"road_anomaly" anomalies)). -/
theorem health_score_formula (p : ReportPayload)
    (hv : validateReportPayload p = none) :
    (ingestReportWithinTransaction p).map (fun row => row.health_score) =
      Except.ok (max 0 (100 -
        15 * ((p.anomalies.filter (fun a => a.type == "pothole")).length : Int) -
        5 * ((p.anomalies.filter (fun a => a.type == "road_anomaly")).length : Int))) := by
  unfold ingestReportWithinTransaction
  rw [hv]
  dsimp only [Except.map]
  congr 1
  omega

/-- A valid pothole anomaly item. -/
def sampleAnomaly : Anomaly :=
  { type := "pothole", latitude := some (some 10), longitude := some (some 20),
    speed := some (some 30) }

/-- A valid single-pothole report payload. -/
def reportSample : ReportPayload :=
  { report_id := some "rep-1"
    device_id := some "dev-1"
    anomalies := [sampleAnomaly] }

/-- Witness for `health_score_formula` on a valid single-pothole report. -/
theorem health_score_formula_witness :
    (ingestReportWithinTransaction reportSample).map (fun row => row.health_score) =
      Except.ok (max 0 (100 -
        15 * ((reportSample.anomalies.filter (fun a => a.type == "pothole")).length : Int) -
        5 * ((reportSample.anomalies.filter
          (fun a => a.type == "road_anomaly")).length : Int))) :=
  health_score_formula reportSample (by decide)

end CMR
